import Mathlib

/-!
Shallow embedding of the subcellos audio engine core (Rust sources under
src/src-tauri/src/engine/) and proofs about its parameter store, transport
clock, ADSR envelopes, WAV writer, playhead bookkeeping, sampler voice,
EQ/mixer stages and the final bus mixer.

Modelling conventions:
* `f32` values are modelled as exact rationals (`ℚ`) where the code only
  uses field operations and comparisons, and as reals (`ℝ`) where the code
  applies transcendental functions (`powf`, `sin`, `cos`, `tanh`).
* machine integers are `ℕ`/`ℤ` with explicit `% 2^w` where wrapping matters.
* Rust strings are modelled by their byte sequences (`List ℕ`), which is
  what the FNV-1a hash consumes.
* `HashMap` is modelled by its lookup function.
-/

namespace Subcellos

/-- Model of Rust `f32::clamp(lo, hi)`: `if x < lo { lo } else if x > hi { hi } else { x }`. -/
def rclamp {K : Type} [LinearOrder K] (x lo hi : K) : K :=
  if x < lo then lo else if hi < x then hi else x

theorem rclamp_le {K : Type} [LinearOrder K] (x lo hi : K) (h : lo ≤ hi) :
    lo ≤ rclamp x lo hi ∧ rclamp x lo hi ≤ hi := by
  unfold rclamp
  split
  · exact ⟨le_refl _, h⟩
  · split
    · exact ⟨h, le_refl _⟩
    · next h1 h2 => exact ⟨le_of_not_lt h1, le_of_not_lt h2⟩

theorem rclamp_eq_self {K : Type} [LinearOrder K] (x lo hi : K)
    (h1 : lo ≤ x) (h2 : x ≤ hi) : rclamp x lo hi = x := by
  unfold rclamp
  rw [if_neg (not_lt.mpr h1), if_neg (not_lt.mpr h2)]

/-! ### FNV-1a hash and the parameter store (engine/params.rs) -/

/-- The FNV-1a 64-bit offset basis (params.rs line 75). -/
def fnvOffsetBasis : ℕ := 0xcbf29ce484222325

/-- The FNV-1a 64-bit prime (params.rs line 78). -/
def fnvPrime : ℕ := 0x100000001b3

/-- One FNV-1a step: `hash ^= b; hash = hash.wrapping_mul(prime)`. -/
def fnvStep (h b : ℕ) : ℕ := ((h ^^^ b) * fnvPrime) % 2 ^ 64

/-- Model of `fast_hash` (params.rs lines 72-81): FNV-1a over the path bytes. -/
def fast_hash (s : List ℕ) : ℕ := s.foldl fnvStep fnvOffsetBasis

/-- Model of `ParamValue` (tagged variant over f32 / i32 / bool / string). -/
inductive ParamValue where
  | F32 (v : ℚ)
  | I32 (v : ℤ)
  | BoolV (v : Bool)
  | Str (v : List ℕ)
deriving DecidableEq

/-- Model of `ParamStore` (params.rs lines 36-41): a string-keyed map and a
hash-keyed map, each modelled by its lookup function. -/
structure ParamStore where
  map : List ℕ → Option ParamValue
  lag_ms : ℚ
  map_h : ℕ → Option ParamValue

/-- Model of `ParamStore::new`. -/
def ParamStore.new : ParamStore :=
  { map := fun _ => none, lag_ms := 5 / 1000, map_h := fun _ => none }

/-- Model of `ParamStore::set` (params.rs lines 47-51): inserts into the
hash-keyed map under `fast_hash path` and into the string-keyed map. -/
def ParamStore.set (st : ParamStore) (path : List ℕ) (v : ParamValue) : ParamStore :=
  let h := fast_hash path
  { st with
    map_h := fun k => if k = h then some v else st.map_h k,
    map := fun p => if p = path then some v else st.map p }

/-- Model of `ParamStore::get_f32`. -/
def ParamStore.get_f32 (st : ParamStore) (path : List ℕ) (default : ℚ) : ℚ :=
  match st.map path with
  | some (.F32 v) => v
  | _ => default

/-- Model of `ParamStore::get_i32`. -/
def ParamStore.get_i32 (st : ParamStore) (path : List ℕ) (default : ℤ) : ℤ :=
  match st.map path with
  | some (.I32 v) => v
  | _ => default

/-- Model of `ParamStore::get_f32_h`. -/
def ParamStore.get_f32_h (st : ParamStore) (key : ℕ) (default : ℚ) : ℚ :=
  match st.map_h key with
  | some (.F32 v) => v
  | _ => default

/-- Model of `ParamStore::get_i32_h`. -/
def ParamStore.get_i32_h (st : ParamStore) (key : ℕ) (default : ℤ) : ℤ :=
  match st.map_h key with
  | some (.I32 v) => v
  | _ => default

/-- Model of `ParamStore::get_bool`. -/
def ParamStore.get_bool (st : ParamStore) (path : List ℕ) (default : Bool) : Bool :=
  match st.map path with
  | some (.BoolV v) => v
  | _ => default

/-- Applies a sequence of `set` operations in order. -/
def ParamStore.setAll (st : ParamStore) (ops : List (List ℕ × ParamValue)) : ParamStore :=
  ops.foldl (fun s pv => s.set pv.1 pv.2) st

theorem ParamStore.setAll_append (st : ParamStore) (l m : List (List ℕ × ParamValue)) :
    st.setAll (l ++ m) = (st.setAll l).setAll m := by
  simp [ParamStore.setAll, List.foldl_append]

theorem ParamStore.set_map_self (st : ParamStore) (p : List ℕ) (v : ParamValue) :
    (st.set p v).map p = some v := by
  simp [ParamStore.set]

theorem ParamStore.set_map_h_self (st : ParamStore) (p : List ℕ) (v : ParamValue) :
    (st.set p v).map_h (fast_hash p) = some v := by
  simp [ParamStore.set]

theorem ParamStore.set_map_other (st : ParamStore) (p q : List ℕ) (v : ParamValue)
    (h : q ≠ p) : (st.set q v).map p = st.map p := by
  simp [ParamStore.set, Ne.symm h]

theorem ParamStore.set_map_h_other (st : ParamStore) (p : ℕ) (q : List ℕ) (v : ParamValue)
    (h : fast_hash q ≠ p) : (st.set q v).map_h p = st.map_h p := by
  simp [ParamStore.set, Ne.symm h]

theorem ParamStore.setAll_map_preserved (st : ParamStore) (ops : List (List ℕ × ParamValue))
    (p : List ℕ) (h : ∀ q ∈ ops.map Prod.fst, q ≠ p) :
    (st.setAll ops).map p = st.map p := by
  induction ops generalizing st with
  | nil => rfl
  | cons op tl ih =>
      have h0 : op.1 ≠ p := h op.1 (by simp)
      have htl : ∀ q ∈ tl.map Prod.fst, q ≠ p := fun q hq => h q (by simp [hq])
      calc (st.setAll (op :: tl)).map p
          = ((st.set op.1 op.2).setAll tl).map p := rfl
        _ = (st.set op.1 op.2).map p := ih _ htl
        _ = st.map p := ParamStore.set_map_other st p op.1 op.2 h0

theorem ParamStore.setAll_map_h_preserved (st : ParamStore) (ops : List (List ℕ × ParamValue))
    (k : ℕ) (h : ∀ q ∈ ops.map Prod.fst, fast_hash q ≠ k) :
    (st.setAll ops).map_h k = st.map_h k := by
  induction ops generalizing st with
  | nil => rfl
  | cons op tl ih =>
      have h0 : fast_hash op.1 ≠ k := h op.1 (by simp)
      have htl : ∀ q ∈ tl.map Prod.fst, fast_hash q ≠ k := fun q hq => h q (by simp [hq])
      calc (st.setAll (op :: tl)).map_h k
          = ((st.set op.1 op.2).setAll tl).map_h k := rfl
        _ = (st.set op.1 op.2).map_h k := ih _ htl
        _ = st.map_h k := ParamStore.set_map_h_other st k op.1 op.2 h0

/-- Byte sequence of the ASCII path string "4db4be9ccd269edd". -/
def collPathA : List ℕ :=
  [52, 100, 98, 52, 98, 101, 57, 99, 99, 100, 50, 54, 57, 101, 100, 100]

/-- Byte sequence of the ASCII path string "049676eff0705c0b". -/
def collPathB : List ℕ :=
  [48, 52, 57, 54, 55, 54, 101, 102, 102, 48, 55, 48, 53, 99, 48, 98]

/-- C1, counterexample: two distinct paths whose FNV-1a 64-bit hashes collide,
so after `set(pathA, 1.0); set(pathB, 2.0)` (distinct paths) the hashed read for
pathA returns 2.0, not the last value set for pathA, and the string-keyed and
hash-keyed mappings disagree on pathA. -/
theorem C1_counterexample :
    collPathA ≠ collPathB ∧
    fast_hash collPathA = fast_hash collPathB ∧
    ((ParamStore.new.set collPathA (.F32 1)).set collPathB (.F32 2)).get_f32_h
      (fast_hash collPathA) 0 = 2 ∧
    ((ParamStore.new.set collPathA (.F32 1)).set collPathB (.F32 2)).get_f32
      collPathA 0 = 1 := by
  refine ⟨by decide, by decide, ?_, ?_⟩
  · show ParamStore.get_f32_h _ _ _ = 2
    rw [ParamStore.get_f32_h]
    rw [show fast_hash collPathA = fast_hash collPathB from by decide]
    rw [ParamStore.set_map_h_self]
  · show ParamStore.get_f32 _ _ _ = 1
    rw [ParamStore.get_f32, ParamStore.set_map_other _ _ _ _ (by decide),
      ParamStore.set_map_self]

/-- C1, amended: for a sequence of `set` operations whose paths are distinct AND
whose FNV-1a hashes are pairwise distinct, hashed reads return the value of the
last `set` per path; and immediately after any `set(path, v)` both the
string-keyed and the hash-keyed mapping observe `v`. -/
theorem C1_param_store_agree (pre post : List (List ℕ × ParamValue)) (p : List ℕ)
    (v : ParamValue)
    (hpath : ∀ q ∈ post.map Prod.fst, q ≠ p)
    (hhash : ∀ q ∈ post.map Prod.fst, fast_hash q ≠ fast_hash p) :
    (ParamStore.new.setAll (pre ++ (p, v) :: post)).map p = some v ∧
    (ParamStore.new.setAll (pre ++ (p, v) :: post)).map_h (fast_hash p) = some v ∧
    (∀ x, v = .F32 x →
      (ParamStore.new.setAll (pre ++ (p, v) :: post)).get_f32_h (fast_hash p) 0 = x) ∧
    (∀ st : ParamStore, (st.set p v).map p = some v ∧
      (st.set p v).map_h (fast_hash p) = some v) := by
  have hsplit : ParamStore.new.setAll (pre ++ (p, v) :: post)
      = (((ParamStore.new.setAll pre).set p v).setAll post) := by
    rw [ParamStore.setAll_append]; rfl
  have h1 : (ParamStore.new.setAll (pre ++ (p, v) :: post)).map p = some v := by
    rw [hsplit, ParamStore.setAll_map_preserved _ _ _ hpath, ParamStore.set_map_self]
  have h2 : (ParamStore.new.setAll (pre ++ (p, v) :: post)).map_h (fast_hash p) = some v := by
    rw [hsplit, ParamStore.setAll_map_h_preserved _ _ _ hhash, ParamStore.set_map_h_self]
  refine ⟨h1, h2, ?_, ?_⟩
  · intro x hx
    rw [ParamStore.get_f32_h, h2, hx]
  · intro st
    exact ⟨ParamStore.set_map_self st p v, ParamStore.set_map_h_self st p v⟩

/-- Witness for `C1_param_store_agree` at a concrete sequence of sets. -/
theorem C1_param_store_agree_witness :
    (ParamStore.new.setAll ([([97], ParamValue.F32 3)] ++ ([98], ParamValue.F32 5) :: [([99], ParamValue.F32 7)])).get_f32_h
      (fast_hash [98]) 0 = 5 :=
  (C1_param_store_agree [([97], ParamValue.F32 3)] [([99], ParamValue.F32 7)] [98]
    (ParamValue.F32 5) (by decide) (by decide)).2.2.1 5 rfl

/-! ### Transport clock (engine/audio.rs lines 84-146)

The `debug : TransportDebug` field only buffers wraparound sample indices for
an optional file sink and never influences `phase`, `bpm` or `running`; being
pure I/O it is omitted from the state. -/

/-- Model of `TransportClock` (audio.rs lines 84-92). -/
structure TransportClock where
  sr : ℚ
  bpm : ℚ
  beats_per_sample : ℚ
  phase : ℚ
  running : Bool
  sample_counter : ℕ

/-- Model of `TransportClock::update_coeff` (audio.rs lines 109-112). -/
def TransportClock.update_coeff (c : TransportClock) : TransportClock :=
  { c with beats_per_sample := (c.bpm / 60) / c.sr }

/-- Model of `TransportClock::new` (audio.rs lines 95-107). -/
def TransportClock.new (sr bpm : ℚ) : TransportClock :=
  TransportClock.update_coeff
    { sr := max sr 1, bpm := rclamp bpm 40 300, beats_per_sample := 0,
      phase := 0, running := true, sample_counter := 0 }

/-- Model of `TransportClock::set_bpm` (audio.rs lines 114-117). -/
def TransportClock.set_bpm (c : TransportClock) (bpm : ℚ) : TransportClock :=
  TransportClock.update_coeff { c with bpm := rclamp bpm 40 300 }

/-- Model of `TransportClock::set_running` (audio.rs lines 119-122). -/
def TransportClock.set_running (c : TransportClock) (running : Bool) : TransportClock :=
  { c with running := running }

/-- Model of `TransportClock::phase_for_next_sample` (audio.rs lines 124-139):
when running, advance phase by beats_per_sample, subtract the wrap count
(`next.floor()`), bump the wrapping sample counter, and return the new phase;
when stopped, return the held phase unchanged.  The `debug.record` call on a
wrap is I/O only and is omitted. -/
def TransportClock.phase_for_next_sample (c : TransportClock) : ℚ × TransportClock :=
  if c.running then
    let next := c.phase + c.beats_per_sample
    let next := if 1 ≤ next then next - (⌊next⌋ : ℚ) else next
    let c := { c with phase := next, sample_counter := (c.sample_counter + 1) % 2 ^ 64 }
    (c.phase, c)
  else
    (c.phase, c)

/-- States reachable from `TransportClock::new` via the public mutators. -/
inductive TransportClock.Reachable : TransportClock → Prop
  | new (sr bpm : ℚ) : Reachable (TransportClock.new sr bpm)
  | set_bpm {c : TransportClock} (bpm : ℚ) :
      Reachable c → Reachable (c.set_bpm bpm)
  | set_running {c : TransportClock} (running : Bool) :
      Reachable c → Reachable (c.set_running running)
  | step {c : TransportClock} :
      Reachable c → Reachable c.phase_for_next_sample.2

theorem TransportClock.reachable_invariant {c : TransportClock}
    (h : TransportClock.Reachable c) :
    1 ≤ c.sr ∧ 40 ≤ c.bpm ∧ c.bpm ≤ 300 ∧
    c.beats_per_sample = (c.bpm / 60) / c.sr ∧ 0 ≤ c.phase ∧ c.phase < 1 := by
  induction h with
  | new sr bpm =>
      exact ⟨le_max_right sr 1, (rclamp_le bpm 40 300 (by norm_num)).1,
        (rclamp_le bpm 40 300 (by norm_num)).2, rfl, le_refl 0,
        show (0 : ℚ) < 1 by norm_num⟩
  | @set_bpm c0 bpm hc ih =>
      obtain ⟨h1, _, _, _, h5, h6⟩ := ih
      exact ⟨h1, (rclamp_le bpm 40 300 (by norm_num)).1,
        (rclamp_le bpm 40 300 (by norm_num)).2, rfl, h5, h6⟩
  | @set_running c0 running hc ih => exact ih
  | @step c0 hc ih =>
      obtain ⟨h1, h2, h3, h4, h5, h6⟩ := ih
      by_cases hr : c0.running
      · have hbps : 0 ≤ c0.beats_per_sample := by
          rw [h4]
          positivity
        have hnext : 0 ≤ c0.phase + c0.beats_per_sample := add_nonneg h5 hbps
        simp only [TransportClock.phase_for_next_sample, hr, if_true]
        refine ⟨h1, h2, h3, h4, ?_, ?_⟩
        · split
          · next hge =>
              have := Int.fract_nonneg (c0.phase + c0.beats_per_sample)
              rw [Int.fract] at this
              exact this
          · exact hnext
        · split
          · next hge =>
              have := Int.fract_lt_one (c0.phase + c0.beats_per_sample)
              rw [Int.fract] at this
              exact this
          · next hge => exact lt_of_not_le fun hcon => hge (by linarith)
      · have hc : c0.phase_for_next_sample = (c0.phase, c0) := by
          simp [TransportClock.phase_for_next_sample, hr]
        rw [hc]
        exact ⟨h1, h2, h3, h4, h5, h6⟩

/-- C2: `set_bpm` clamps bpm to [40,300] and immediately recomputes
beats_per_sample = (bpm/60)/sr; when running, `phase_for_next_sample` advances
phase by beats_per_sample wrapping modulo 1 and returns the new phase; when
stopped it returns the held phase without any state change; `set_running`
changes only the running flag; and every reachable state has phase in [0,1). -/
theorem C2_transport_clock :
    (∀ (c : TransportClock) (bpm : ℚ),
      (c.set_bpm bpm).bpm = rclamp bpm 40 300 ∧
      (c.set_bpm bpm).beats_per_sample = (rclamp bpm 40 300 / 60) / c.sr ∧
      (c.set_bpm bpm).phase = c.phase ∧ (c.set_bpm bpm).running = c.running ∧
      (c.set_bpm bpm).sr = c.sr) ∧
    (∀ c : TransportClock, TransportClock.Reachable c → c.running = true →
      c.phase_for_next_sample.2.phase = Int.fract (c.phase + c.beats_per_sample) ∧
      c.phase_for_next_sample.1 = c.phase_for_next_sample.2.phase) ∧
    (∀ c : TransportClock, c.running = false →
      c.phase_for_next_sample = (c.phase, c)) ∧
    (∀ (c : TransportClock) (running : Bool),
      c.set_running running = { c with running := running }) ∧
    (∀ c : TransportClock, TransportClock.Reachable c →
      0 ≤ c.phase ∧ c.phase < 1) := by
  refine ⟨?_, ?_, ?_, ?_, ?_⟩
  · intro c bpm
    exact ⟨rfl, rfl, rfl, rfl, rfl⟩
  · intro c hreach hrun
    obtain ⟨h1, h2, h3, h4, h5, h6⟩ := TransportClock.reachable_invariant hreach
    have hbps : 0 ≤ c.beats_per_sample := by rw [h4]; positivity
    have hnext : 0 ≤ c.phase + c.beats_per_sample := add_nonneg h5 hbps
    constructor
    · simp only [TransportClock.phase_for_next_sample, hrun, if_true]
      split
      · rw [Int.fract]
      · next hge =>
          exact (Int.fract_eq_self.mpr ⟨hnext, lt_of_not_le fun hcon => hge (by linarith)⟩).symm
    · simp only [TransportClock.phase_for_next_sample, hrun, if_true]
  · intro c hstop
    simp [TransportClock.phase_for_next_sample, hstop]
  · intro c running
    rfl
  · intro c hreach
    obtain ⟨_, _, _, _, h5, h6⟩ := TransportClock.reachable_invariant hreach
    exact ⟨h5, h6⟩

/-- Witness for `C2_transport_clock` at concrete clocks. -/
theorem C2_transport_clock_witness :
    ((TransportClock.new 44100 120).set_bpm 999).bpm = rclamp 999 40 300 ∧
    (TransportClock.new 44100 120).phase_for_next_sample.2.phase =
      Int.fract ((TransportClock.new 44100 120).phase +
        (TransportClock.new 44100 120).beats_per_sample) ∧
    ((TransportClock.new 44100 120).set_running false).phase_for_next_sample =
      (((TransportClock.new 44100 120).set_running false).phase,
        (TransportClock.new 44100 120).set_running false) ∧
    (0 ≤ (TransportClock.new 48000 300).phase ∧ (TransportClock.new 48000 300).phase < 1) :=
  ⟨(C2_transport_clock.1 (TransportClock.new 44100 120) 999).1,
   (C2_transport_clock.2.1 (TransportClock.new 44100 120)
      (TransportClock.Reachable.new 44100 120) rfl).1,
   C2_transport_clock.2.2.1 ((TransportClock.new 44100 120).set_running false) rfl,
   C2_transport_clock.2.2.2.2 (TransportClock.new 48000 300)
      (TransportClock.Reachable.new 48000 300)⟩

/-! ### Analog-voice ADSR (engine/graph.rs lines 90-127) -/

/-- Model of `Adsr` (graph.rs lines 90-96). -/
structure Adsr where
  a : ℚ
  d : ℚ
  s : ℚ
  r : ℚ
  sr : ℚ
  env : ℚ
  gate : Bool
  attacking : Bool
deriving DecidableEq

/-- Model of `Adsr::new`. -/
def Adsr.new (sr : ℚ) : Adsr :=
  { a := 1 / 100, d := 1 / 10, s := 8 / 10, r := 2 / 10, sr := sr,
    env := 0, gate := false, attacking := false }

/-- Model of `Adsr::set` (graph.rs line 100). -/
def Adsr.set (e : Adsr) (a d s r : ℚ) : Adsr :=
  { e with a := max a (1 / 1000), d := max d (1 / 1000),
           s := rclamp s 0 1, r := max r (1 / 1000) }

/-- Model of `Adsr::gate_on`. -/
def Adsr.gate_on (e : Adsr) : Adsr := { e with gate := true, attacking := true }

/-- Model of `Adsr::gate_off`. -/
def Adsr.gate_off (e : Adsr) : Adsr := { e with gate := false, attacking := false }

/-- Model of `Adsr::next` (graph.rs lines 103-126): attack toward 1 at rate
1/(a·sr); decay toward the sustain level at rate (1-s)/(d·sr) (or rise at
s/(d·sr)); with the gate off, ramp linearly toward 0 by the constant step
1/(r·sr), clamping at 0.  Returns the updated envelope value. -/
def Adsr.next (e : Adsr) : ℚ × Adsr :=
  if e.gate then
    if e.attacking then
      if e.env < 1 then
        let env := e.env + 1 / (e.a * e.sr)
        if 1 ≤ env then (1, { e with env := 1, attacking := false })
        else (env, { e with env := env })
      else (e.env, { e with attacking := false })
    else
      if e.s < e.env then
        let dec := max (1 - e.s) (1 / 10000) / (e.d * e.sr)
        let env := e.env - dec
        let env := if env < e.s then e.s else env
        (env, { e with env := env })
      else if e.env < e.s then
        let inc := max e.s (1 / 10000) / (e.d * e.sr)
        let env := e.env + inc
        let env := if e.s < env then e.s else env
        (env, { e with env := env })
      else (e.env, e)
  else
    if 0 < e.env then
      let env := e.env - 1 / (e.r * e.sr)
      let env := if env < 0 then 0 else env
      (env, { e with env := env })
    else (e.env, e)

/-- Iterates `Adsr::next` n times, keeping only the state. -/
def Adsr.nextN (n : ℕ) (e : Adsr) : Adsr :=
  match n with
  | 0 => e
  | n + 1 => Adsr.nextN n e.next.2

/-- Concrete released ADSR state used by the C3 counterexample:
sr = 10, release = 1 s, envelope 1/2 at the moment of gate-off. -/
def adsrCexState : Adsr :=
  { a := 1 / 100, d := 1 / 10, s := 8 / 10, r := 1, sr := 10,
    env := 1 / 2, gate := false, attacking := false }

/-- C3, counterexample: with the gate off at env = 1/2, r = 1, sr = 10, one
call to `next` yields 1/2 - 1/(r·sr) = 2/5, not the claimed
env - env/(r·sr) = 9/20: the release step is the constant 1/(r·sr), not
env/(r·sr). -/
theorem C3_counterexample :
    (Adsr.next adsrCexState).1 ≠
      adsrCexState.env - adsrCexState.env / (adsrCexState.r * adsrCexState.sr) ∧
    (Adsr.next adsrCexState).1 =
      adsrCexState.env - 1 / (adsrCexState.r * adsrCexState.sr) := by
  have hv : (Adsr.next adsrCexState).1 = 2 / 5 := by
    norm_num [Adsr.next, adsrCexState]
  rw [hv]
  constructor
  · show (2 / 5 : ℚ) ≠ 1 / 2 - (1 / 2) / (1 * 10)
    norm_num
  · show (2 / 5 : ℚ) = 1 / 2 - 1 / (1 * 10)
    norm_num

theorem Adsr.next_released (a d s r sr env : ℚ) (att : Bool) (h0 : 0 ≤ env)
    (hr : 0 < r * sr) :
    (Adsr.next ⟨a, d, s, r, sr, env, false, att⟩).2 =
      ⟨a, d, s, r, sr, max 0 (env - 1 / (r * sr)), false, att⟩ := by
  have hstep : 0 < 1 / (r * sr) := by positivity
  unfold Adsr.next
  dsimp only
  simp only [Bool.false_eq_true, if_false]
  rcases lt_or_eq_of_le h0 with hpos | hzero
  · rw [if_pos hpos]
    rcases lt_or_le (env - 1 / (r * sr)) 0 with hneg | hge
    · simp only [if_pos hneg]
      rw [max_eq_left (le_of_lt hneg)]
    · simp only [if_neg (not_lt.mpr hge)]
      rw [max_eq_right hge]
  · rw [if_neg (by rw [← hzero]; exact lt_irrefl 0)]
    rw [show max 0 (env - 1 / (r * sr)) = env by rw [← hzero, max_eq_left (by linarith)]]

theorem Adsr.nextN_released (a d s r sr env : ℚ) (att : Bool) (h0 : 0 ≤ env)
    (hr : 0 < r * sr) (n : ℕ) :
    (Adsr.nextN n ⟨a, d, s, r, sr, env, false, att⟩).env =
      max 0 (env - n * (1 / (r * sr))) := by
  induction n generalizing env with
  | zero =>
      simp only [Adsr.nextN, Nat.cast_zero, zero_mul, sub_zero]
      rw [max_eq_right h0]
  | succ n ih =>
      have hstep : 0 ≤ 1 / (r * sr) := le_of_lt (by positivity)
      show (Adsr.nextN n (Adsr.next ⟨a, d, s, r, sr, env, false, att⟩).2).env = _
      rw [Adsr.next_released a d s r sr env att h0 hr]
      rw [ih _ (le_max_left _ _)]
      have heq : max 0 (max 0 (env - 1 / (r * sr)) - n * (1 / (r * sr)))
          = max 0 (env - (n + 1 : ℚ) * (1 / (r * sr))) := by
        rcases le_or_lt 0 (env - 1 / (r * sr)) with hge | hlt
        · rw [max_eq_right hge]
          ring_nf
        · rw [max_eq_left (le_of_lt hlt)]
          have hn : 0 ≤ (n : ℚ) * (1 / (r * sr)) := by positivity
          rw [max_eq_left (by linarith), max_eq_left (by nlinarith)]
      rw [heq]
      push_cast
      ring_nf

/-- C3, amended: with the gate off, each call to `next` with a positive
envelope decrements it by the constant step 1/(r·sr) (clamped at 0), so after
n calls the envelope equals max(0, env₀ - n/(r·sr)); in particular, starting
from any envelope value env₀ ≤ 1 the envelope reaches exactly 0 within r·sr
calls (r seconds of samples). -/
theorem C3_adsr_release (e : Adsr) (hg : e.gate = false) (h0 : 0 ≤ e.env)
    (hr : 0 < e.r * e.sr) :
    (∀ n : ℕ, (Adsr.nextN n e).env = max 0 (e.env - n * (1 / (e.r * e.sr)))) ∧
    (∀ n : ℕ, e.env ≤ 1 → e.r * e.sr ≤ (n : ℚ) → (Adsr.nextN n e).env = 0) := by
  obtain ⟨a, d, s, r, sr, env, gate, att⟩ := e
  simp only at hg h0 hr ⊢
  subst hg
  constructor
  · exact Adsr.nextN_released a d s r sr env att h0 hr
  · intro n h1 hn
    rw [Adsr.nextN_released a d s r sr env att h0 hr n]
    have hrs : env - n * (1 / (r * sr)) ≤ 0 := by
      have hone : r * sr * (1 / (r * sr)) = 1 := by
        field_simp
      nlinarith [mul_le_mul_of_nonneg_right hn
        (le_of_lt (by positivity : (0:ℚ) < 1 / (r * sr)))]
    rw [max_eq_left hrs]

/-- Witness for `C3_adsr_release`: an envelope released at 1/2 with r·sr = 10
reaches 0 after 10 calls, and after 3 calls sits at max(0, 1/2 - 3/10). -/
theorem C3_adsr_release_witness :
    (Adsr.nextN 3 adsrCexState).env =
      max 0 (adsrCexState.env - 3 * (1 / (adsrCexState.r * adsrCexState.sr))) ∧
    (Adsr.nextN 10 adsrCexState).env = 0 :=
  ⟨(C3_adsr_release adsrCexState rfl (by norm_num [adsrCexState])
      (by norm_num [adsrCexState])).1 3,
   (C3_adsr_release adsrCexState rfl (by norm_num [adsrCexState])
      (by norm_num [adsrCexState])).2 10 (by norm_num [adsrCexState])
      (by norm_num [adsrCexState])⟩

/-! ### WAV recording (engine/audio.rs lines 541-619)

The byte stream written by `write_wav_file` is modelled as a `List ℕ` of
byte values; the file-system side (directory creation, `sampleN.wav` naming)
is I/O and not part of the modelled artifact. -/

/-- Little-endian bytes of a u16 value. -/
def u16le (n : ℕ) : List ℕ := [n % 256, n / 256 % 256]

/-- Little-endian bytes of a u32 value. -/
def u32le (n : ℕ) : List ℕ :=
  [n % 256, n / 256 % 256, n / 256 ^ 2 % 256, n / 256 ^ 3 % 256]

/-- Truncation toward zero, the rounding of Rust float-to-int `as` casts. -/
def ratTruncToInt (q : ℚ) : ℤ := if q < 0 then -(⌊-q⌋) else ⌊q⌋

/-- Saturating f32-to-u32 `as` cast (negative saturates to 0, huge to 2^32-1). -/
def f32AsU32 (q : ℚ) : ℕ := min (ratTruncToInt q).toNat (2 ^ 32 - 1)

/-- Model of `(sample.clamp(-1.0, 1.0) * 32767.0) as i16` (audio.rs line 613). -/
def f32AsI16 (x : ℚ) : ℤ := ratTruncToInt (rclamp x (-1) 1 * 32767)

/-- Two's-complement little-endian bytes of an i16 value. -/
def i16le (v : ℤ) : List ℕ := u16le (Int.emod v 65536).toNat

/-- Model of `write_wav_file` (audio.rs lines 571-619): the exact byte stream
written — RIFF header, fmt chunk (PCM, mono, 16-bit, the given sample rate),
data chunk, then each f32 sample clamped, scaled by 32767 and truncated to a
little-endian i16. -/
def write_wav_file (samples : List ℚ) (sample_rate : ℚ) : List ℕ :=
  let num_samples : ℕ := samples.length % 2 ^ 32
  let byte_rate : ℕ := f32AsU32 (sample_rate * 2)
  let data_size : ℕ := num_samples * 2 % 2 ^ 32
  let file_size : ℕ := (36 + data_size) % 2 ^ 32
  [82, 73, 70, 70] ++ u32le file_size ++ [87, 65, 86, 69]
    ++ [102, 109, 116, 32] ++ u32le 16 ++ u16le 1 ++ u16le 1
    ++ u32le (f32AsU32 sample_rate) ++ u32le byte_rate ++ u16le 2 ++ u16le 16
    ++ [100, 97, 116, 97] ++ u32le data_size
    ++ samples.flatMap (fun s => i16le (f32AsI16 s))

/-- Model of `save_recorded_samples` (audio.rs lines 541-569): the recorded
bus samples are written with the hard-coded rate argument 44100.0
("Write WAV file (simple 44.1kHz mono format)"), whatever rate the engine
rendered them at.  The directory/filename scan is I/O and omitted. -/
def save_recorded_samples (samples : List ℚ) : List ℕ :=
  write_wav_file samples 44100

/-- Reads a little-endian u32 field at a byte offset. -/
def readU32le (bs : List ℕ) (off : ℕ) : ℕ :=
  bs.getD off 0 + 256 * bs.getD (off + 1) 0 + 256 ^ 2 * bs.getD (off + 2) 0
    + 256 ^ 3 * bs.getD (off + 3) 0

set_option maxRecDepth 4000 in
/-- C4, counterexample: the engine can run at 48000 Hz (audio.rs line 186
prefers 48 kHz), yet the sample-rate field (bytes 24..27) of the saved WAV is
always 44100, so it does not equal the engine sample rate at which the samples
were rendered. -/
theorem C4_counterexample :
    readU32le (save_recorded_samples [0]) 24 = 44100 ∧ (44100 : ℕ) ≠ 48000 := by
  constructor
  · decide
  · decide

theorem wav_data_length (samples : List ℚ) :
    (samples.flatMap fun s => i16le (f32AsI16 s)).length = 2 * samples.length := by
  induction samples with
  | nil => rfl
  | cons h t ih =>
      show ((i16le (f32AsI16 h)) ++ t.flatMap fun s => i16le (f32AsI16 s)).length = _
      rw [List.length_append, ih, show (i16le (f32AsI16 h)).length = 2 from rfl,
        List.length_cons]
      ring

/-- C4, amended: the saved recording is a RIFF/WAVE file with PCM format tag 1,
1 channel, 16 bits per sample, a 44-byte header followed by the 2-byte
little-endian samples — but its sample-rate field is always 44100 (bytes
[68,172,0,0]), independent of the engine sample rate. -/
theorem C4_wav_format (samples : List ℚ) :
    save_recorded_samples samples =
      [82, 73, 70, 70]
        ++ u32le ((36 + samples.length % 2 ^ 32 * 2 % 2 ^ 32) % 2 ^ 32)
        ++ [87, 65, 86, 69, 102, 109, 116, 32, 16, 0, 0, 0, 1, 0, 1, 0,
            68, 172, 0, 0, 136, 88, 1, 0, 2, 0, 16, 0, 100, 97, 116, 97]
        ++ u32le (samples.length % 2 ^ 32 * 2 % 2 ^ 32)
        ++ samples.flatMap (fun s => i16le (f32AsI16 s)) ∧
    (save_recorded_samples samples).length = 44 + 2 * samples.length := by
  have hrate : f32AsU32 44100 = 44100 := by decide
  have hbyte : f32AsU32 (44100 * 2) = 88200 := by
    rw [show (44100 * 2 : ℚ) = 88200 by norm_num]
    decide
  have hform : save_recorded_samples samples =
      [82, 73, 70, 70]
        ++ u32le ((36 + samples.length % 2 ^ 32 * 2 % 2 ^ 32) % 2 ^ 32)
        ++ [87, 65, 86, 69, 102, 109, 116, 32, 16, 0, 0, 0, 1, 0, 1, 0,
            68, 172, 0, 0, 136, 88, 1, 0, 2, 0, 16, 0, 100, 97, 116, 97]
        ++ u32le (samples.length % 2 ^ 32 * 2 % 2 ^ 32)
        ++ samples.flatMap (fun s => i16le (f32AsI16 s)) := by
    show write_wav_file samples 44100 = _
    unfold write_wav_file
    rw [hrate, hbyte]
    simp only [u32le, u16le]
    norm_num
  refine ⟨hform, ?_⟩
  rw [hform]
  simp only [List.length_append, List.length_cons, List.length_nil, u32le,
    wav_data_length]

/-! ### Shared playhead state (engine/state.rs, graph.rs render_frame lines 2324-2337) -/

/-- Model of `PlayheadState` (modules/sampler.rs lines 725-733). -/
structure PlayheadState where
  position_rel : ℚ
  loop_start_rel : ℚ
  loop_end_rel : ℚ
  loop_mode : ℤ
  direction : ℚ
  playing : Bool
deriving DecidableEq

/-- Model of `set_playhead_state` (state.rs lines 11-19): writes the entry at
`part` if the index is in range, otherwise leaves the vector unchanged. -/
def set_playhead_state (v : List (Option PlayheadState)) (part : ℕ)
    (state : Option PlayheadState) : List (Option PlayheadState) :=
  if part < v.length then v.set part state else v

/-- One iteration of the playhead-update loop of `EngineGraph::render_frame`
(graph.rs lines 2325-2336): for part index i, module kind 4 (sampler) stores
the sampler-computed playhead entry (given per part in `samplerStates`, the
result of `compute_playhead_state`, written whether `Some` or `None`); kind 5
(drum) clears the entry; any other kind writes nothing. -/
def playhead_step (kinds : List ℤ) (samplerStates : List (Option PlayheadState))
    (acc : List (Option PlayheadState)) (i : ℕ) : List (Option PlayheadState) :=
  if kinds.getD i 0 = 4 then set_playhead_state acc i (samplerStates.getD i none)
  else if kinds.getD i 0 = 5 then set_playhead_state acc i none
  else acc

/-- Model of the playhead-update loop of `EngineGraph::render_frame`
(graph.rs lines 2324-2337): iterate `playhead_step` over all part indices. -/
def render_frame_playhead_update (kinds : List ℤ)
    (samplerStates : List (Option PlayheadState))
    (v : List (Option PlayheadState)) : List (Option PlayheadState) :=
  (List.range kinds.length).foldl (playhead_step kinds samplerStates) v

/-- Concrete playhead entry used by the C5 counterexample. -/
def playheadCex : PlayheadState :=
  { position_rel := 1, loop_start_rel := 0, loop_end_rel := 1,
    loop_mode := 0, direction := 1, playing := true }

theorem set_playhead_state_length (v : List (Option PlayheadState)) (part : ℕ)
    (state : Option PlayheadState) :
    (set_playhead_state v part state).length = v.length := by
  unfold set_playhead_state
  split <;> simp

theorem playhead_step_length (kinds : List ℤ)
    (samplerStates acc : List (Option PlayheadState)) (i : ℕ) :
    (playhead_step kinds samplerStates acc i).length = acc.length := by
  unfold playhead_step
  split
  · rw [set_playhead_state_length]
  · split
    · rw [set_playhead_state_length]
    · rfl

theorem playhead_foldl_length (kinds : List ℤ)
    (samplerStates : List (Option PlayheadState)) (idxs : List ℕ)
    (v : List (Option PlayheadState)) :
    (idxs.foldl (playhead_step kinds samplerStates) v).length = v.length := by
  induction idxs generalizing v with
  | nil => rfl
  | cons i tl ih => rw [List.foldl_cons, ih, playhead_step_length]

theorem playhead_step_getD_ne (kinds : List ℤ)
    (samplerStates acc : List (Option PlayheadState)) (i j : ℕ) (hne : j ≠ i) :
    (playhead_step kinds samplerStates acc i).getD j none = acc.getD j none := by
  have hset : ∀ st, (set_playhead_state acc i st).getD j none = acc.getD j none := by
    intro st
    unfold set_playhead_state
    split
    · rw [List.getD_eq_getElem?_getD, List.getElem?_set_ne (Ne.symm hne),
        ← List.getD_eq_getElem?_getD]
    · rfl
  unfold playhead_step
  split
  · exact hset _
  · split
    · exact hset _
    · rfl

theorem playhead_step_getD_self (kinds : List ℤ)
    (samplerStates acc : List (Option PlayheadState)) (i : ℕ) (hi : i < acc.length) :
    (playhead_step kinds samplerStates acc i).getD i none =
      if kinds.getD i 0 = 4 then samplerStates.getD i none
      else if kinds.getD i 0 = 5 then none
      else acc.getD i none := by
  have hset : ∀ st, (set_playhead_state acc i st).getD i none = st := by
    intro st
    unfold set_playhead_state
    rw [if_pos hi, List.getD_eq_getElem?_getD, List.getElem?_set_self hi]
    rfl
  unfold playhead_step
  split
  · next h4 => rw [hset]
  · next h4 =>
      split
      · next h5 => rw [hset]
      · next h5 => rfl

theorem render_frame_playhead_update_getD (kinds : List ℤ)
    (samplerStates v : List (Option PlayheadState))
    (hlen : v.length = kinds.length) (i : ℕ) (hi : i < kinds.length) :
    (render_frame_playhead_update kinds samplerStates v).getD i none =
      if kinds.getD i 0 = 4 then samplerStates.getD i none
      else if kinds.getD i 0 = 5 then none
      else v.getD i none := by
  have key : ∀ n : ℕ, i < n →
      ((List.range n).foldl (playhead_step kinds samplerStates) v).getD i none =
      if kinds.getD i 0 = 4 then samplerStates.getD i none
      else if kinds.getD i 0 = 5 then none
      else v.getD i none := by
    intro n
    induction n with
    | zero => omega
    | succ n ih =>
        intro hin
        rw [List.range_succ, List.foldl_append, List.foldl_cons, List.foldl_nil]
        by_cases hcase : i = n
        · subst hcase
          have hilen : i < ((List.range i).foldl (playhead_step kinds samplerStates) v).length := by
            rw [playhead_foldl_length, hlen]
            exact hi
          rw [playhead_step_getD_self kinds samplerStates _ i hilen]
          have hpres : ((List.range i).foldl (playhead_step kinds samplerStates) v).getD i none
              = v.getD i none := by
            have : ∀ (idxs : List ℕ), (∀ j ∈ idxs, j ≠ i) → ∀ w,
                (idxs.foldl (playhead_step kinds samplerStates) w).getD i none = w.getD i none := by
              intro idxs
              induction idxs with
              | nil => intro _ w; rfl
              | cons a tl ih2 =>
                  intro hall w
                  rw [List.foldl_cons, ih2 (fun j hj => hall j (List.mem_cons_of_mem a hj))]
                  exact playhead_step_getD_ne kinds samplerStates w a i
                    (fun he => hall a (List.mem_cons_self a tl) (by omega))
            exact this (List.range i)
              (fun j hj => by have := List.mem_range.mp hj; omega) v
          rw [hpres]
        · rw [playhead_step_getD_ne kinds samplerStates _ n i hcase]
          exact ih (by omega)
  exact key kinds.length hi

set_option maxRecDepth 2000 in
/-- C5, counterexample: a part whose `module_kind` is 0 (analog, not the
sampler) keeps its previous non-empty playhead entry after the render_frame
playhead loop; only kind 5 (drum) is cleared, so the entry is NOT set to None. -/
theorem C5_counterexample :
    render_frame_playhead_update [0] [none] [some playheadCex] = [some playheadCex] ∧
    some playheadCex ≠ (none : Option PlayheadState) := by
  constructor
  · rfl
  · intro h
    exact Option.noConfusion h

/-- C5, amended: after the render_frame playhead loop, a part with
`module_kind` 4 (sampler) holds the sampler-computed entry, a part with kind 5
(drum) is cleared to None, and a part with any other kind keeps its previous
entry unchanged (it is not cleared). -/
theorem C5_playhead_update (kinds : List ℤ)
    (samplerStates v : List (Option PlayheadState))
    (hlen : v.length = kinds.length) (i : ℕ) (hi : i < kinds.length) :
    (render_frame_playhead_update kinds samplerStates v).getD i none =
      if kinds.getD i 0 = 4 then samplerStates.getD i none
      else if kinds.getD i 0 = 5 then none
      else v.getD i none :=
  render_frame_playhead_update_getD kinds samplerStates v hlen i hi

set_option maxRecDepth 2000 in
/-- Witness for `C5_playhead_update` on a concrete three-part state: the
sampler part takes the computed state, the drum part is cleared, the analog
part keeps its old entry. -/
theorem C5_playhead_update_witness :
    (render_frame_playhead_update [4, 5, 0] [some playheadCex, none, none]
        [none, some playheadCex, some playheadCex]).getD 2 none =
      (if (0 : ℤ) = 4 then ([some playheadCex, none, none].getD 2 none)
       else if (0 : ℤ) = 5 then none
       else ([none, some playheadCex, some playheadCex].getD 2 none)) := by
  have h := C5_playhead_update [4, 5, 0] [some playheadCex, none, none]
    [none, some playheadCex, some playheadCex] rfl 2 (by simp)
  have hk : ([4, 5, 0] : List ℤ).getD 2 0 = 0 := rfl
  rw [hk] at h
  exact h

/-! ### Sample buffer (engine/modules/sampler.rs lines 96-173)

The buffer element type is kept generic over a linear ordered field so the
reads can be evaluated exactly over `ℚ` and reused at `ℝ` by the sampler
voice, whose pitch ratio is transcendental. -/

/-- Model of `SampleBuffer` (sampler.rs lines 97-103). -/
structure SampleBuffer (K : Type) where
  data : List K
  channels : ℕ
  sample_rate : K
  length_samples : ℕ

/-- Model of `SampleBuffer::new`. -/
def SampleBuffer.new {K : Type} [LinearOrderedField K] : SampleBuffer K :=
  { data := [], channels := 1, sample_rate := 44100, length_samples := 0 }

/-- Model of `SampleBuffer::clear` (sampler.rs lines 116-119). -/
def SampleBuffer.clear {K : Type} (b : SampleBuffer K) : SampleBuffer K :=
  { b with data := [], length_samples := 0 }

/-- Model of the buffer update at the end of `load_audio_file`
(sampler.rs lines 1164-1171): data, length = data.len(), rate, channels = 1. -/
def SampleBuffer.load_update {K : Type} (b : SampleBuffer K) (sample_buf : List K)
    (sample_rate : K) : SampleBuffer K :=
  { b with data := sample_buf, length_samples := sample_buf.length,
           sample_rate := sample_rate, channels := 1 }

/-- Model of `SampleBuffer::is_empty`. -/
def SampleBuffer.is_empty {K : Type} (b : SampleBuffer K) : Bool :=
  b.length_samples == 0

/-- Model of `SampleBuffer::get_sample` (sampler.rs lines 126-144). -/
def SampleBuffer.get_sample {K : Type} [LinearOrderedField K] [FloorRing K]
    (b : SampleBuffer K) (position : K) (channel : ℕ) : K :=
  if b.is_empty = true ∨ position < 0 then 0
  else
    let pos_samples : ℕ := (⌊position⌋).toNat
    if b.length_samples ≤ pos_samples then 0
    else
      let channel_offset := if b.channels = 1 then 0 else channel % b.channels
      let index := pos_samples * b.channels + channel_offset
      if index < b.data.length then b.data.getD index 0 else 0

/-- Model of `cubic_interpolate` (sampler.rs lines 37-43). -/
def cubic_interpolate {K : Type} [LinearOrderedField K] (y0 y1 y2 y3 frac : K) : K :=
  let a := y3 - y2 - y0 + y1
  let b := y0 - y1 - a
  let c := y2 - y0
  let d := y1
  a * frac * frac * frac + b * frac * frac + c * frac + d

/-- Model of `SampleBuffer::get_sample_interpolated` (sampler.rs lines
147-172): falls back to `get_sample` when fewer than 4 frames remain, else
reads the 4 surrounding frames and interpolates. -/
def SampleBuffer.get_sample_interpolated {K : Type} [LinearOrderedField K] [FloorRing K]
    (b : SampleBuffer K) (position : K) (channel : ℕ) : K :=
  if b.is_empty = true ∨ position < 0 then 0
  else
    let pos_int : ℕ := (⌊position⌋).toNat
    let frac := position - (pos_int : K)
    if b.length_samples ≤ pos_int + 3 then b.get_sample position channel
    else
      let channel_offset := if b.channels = 1 then 0 else channel % b.channels
      let y0 := if 0 < pos_int then b.data.getD ((pos_int - 1) * b.channels + channel_offset) 0
                else b.data.getD (pos_int * b.channels + channel_offset) 0
      let y1 := b.data.getD (pos_int * b.channels + channel_offset) 0
      let y2 := b.data.getD ((pos_int + 1) * b.channels + channel_offset) 0
      let y3 := b.data.getD ((pos_int + 2) * b.channels + channel_offset) 0
      cubic_interpolate y0 y1 y2 y3 frac

/-- The data indices the non-fallback branch of `get_sample_interpolated`
reads (the y0/y1/y2/y3 subscripts of sampler.rs lines 162-169). -/
def SampleBuffer.interp_indices {K : Type} [LinearOrderedField K] [FloorRing K]
    (b : SampleBuffer K) (position : K) (channel : ℕ) : List ℕ :=
  let pos_int : ℕ := (⌊position⌋).toNat
  let channel_offset := if b.channels = 1 then 0 else channel % b.channels
  [if 0 < pos_int then (pos_int - 1) * b.channels + channel_offset
   else pos_int * b.channels + channel_offset,
   pos_int * b.channels + channel_offset,
   (pos_int + 1) * b.channels + channel_offset,
   (pos_int + 2) * b.channels + channel_offset]

/-- The buffer well-formedness every constructor site maintains (channels is
always set to 1 and length_samples to data.len()). -/
def SampleBuffer.invariant {K : Type} (b : SampleBuffer K) : Prop :=
  1 ≤ b.channels ∧ b.channels * b.length_samples ≤ b.data.length

theorem SampleBuffer.offset_lt_channels {K : Type} [LinearOrderedField K] [FloorRing K]
    (b : SampleBuffer K) (channel : ℕ) (hch : 1 ≤ b.channels) :
    (if b.channels = 1 then 0 else channel % b.channels) < b.channels := by
  split
  · omega
  · exact Nat.mod_lt channel (by omega)

theorem SampleBuffer.index_bound {K : Type} [LinearOrderedField K] [FloorRing K]
    (b : SampleBuffer K) (channel : ℕ) (hch : 1 ≤ b.channels)
    (hlen : b.channels * b.length_samples ≤ b.data.length)
    (m : ℕ) (hm : m < b.length_samples) :
    m * b.channels + (if b.channels = 1 then 0 else channel % b.channels) <
      b.data.length := by
  have hoff := SampleBuffer.offset_lt_channels b channel hch
  calc m * b.channels + (if b.channels = 1 then 0 else channel % b.channels)
      < m * b.channels + b.channels := by omega
    _ = (m + 1) * b.channels := by ring
    _ ≤ b.length_samples * b.channels := Nat.mul_le_mul_right _ (by omega)
    _ = b.channels * b.length_samples := Nat.mul_comm _ _
    _ ≤ b.data.length := hlen

/-- C10: `get_sample` returns 0 for an empty buffer, a negative position, or
an integer position at/beyond length_samples; `get_sample_interpolated` falls
back to `get_sample` when fewer than 4 frames remain; under the buffer
invariant every data index the interpolated read touches is strictly inside
the data vector (so is the single index of `get_sample`'s read branch); and
the invariant holds for every buffer the code constructs (`new`, `clear`,
the `load_audio_file` update). -/
theorem C10_sample_buffer_reads {K : Type} [LinearOrderedField K] [FloorRing K] :
    (∀ (b : SampleBuffer K) (position : K) (channel : ℕ),
      b.is_empty = true → b.get_sample position channel = 0) ∧
    (∀ (b : SampleBuffer K) (position : K) (channel : ℕ),
      position < 0 → b.get_sample position channel = 0 ∧
        b.get_sample_interpolated position channel = 0) ∧
    (∀ (b : SampleBuffer K) (position : K) (channel : ℕ),
      b.length_samples ≤ (⌊position⌋).toNat → b.get_sample position channel = 0) ∧
    (∀ (b : SampleBuffer K) (position : K) (channel : ℕ),
      b.length_samples ≤ (⌊position⌋).toNat + 3 →
      b.get_sample_interpolated position channel = b.get_sample position channel) ∧
    (∀ (b : SampleBuffer K) (position : K) (channel : ℕ),
      1 ≤ b.channels → b.channels * b.length_samples ≤ b.data.length →
      (⌊position⌋).toNat + 3 < b.length_samples →
      ∀ idx ∈ b.interp_indices position channel, idx < b.data.length) ∧
    (∀ (b : SampleBuffer K) (position : K) (channel : ℕ),
      1 ≤ b.channels → b.channels * b.length_samples ≤ b.data.length →
      (⌊position⌋).toNat < b.length_samples →
      (⌊position⌋).toNat * b.channels +
        (if b.channels = 1 then 0 else channel % b.channels) < b.data.length) ∧
    (SampleBuffer.invariant (SampleBuffer.new (K := K)) ∧
      (∀ b : SampleBuffer K, 1 ≤ b.channels → SampleBuffer.invariant b.clear) ∧
      (∀ (b : SampleBuffer K) (buf : List K) (sr : K),
        SampleBuffer.invariant (b.load_update buf sr))) := by
  refine ⟨?_, ?_, ?_, ?_, ?_, ?_, ?_⟩
  · intro b position channel he
    unfold SampleBuffer.get_sample
    rw [if_pos (Or.inl he)]
  · intro b position channel hneg
    constructor
    · unfold SampleBuffer.get_sample
      rw [if_pos (Or.inr hneg)]
    · unfold SampleBuffer.get_sample_interpolated
      rw [if_pos (Or.inr hneg)]
  · intro b position channel hge
    unfold SampleBuffer.get_sample
    split
    · rfl
    · rw [if_pos hge]
  · intro b position channel hge
    unfold SampleBuffer.get_sample_interpolated
    split
    · next h =>
        unfold SampleBuffer.get_sample
        rw [if_pos h]
    · rw [if_pos hge]
  · intro b position channel hch hlen hkeep idx hidx
    have hb := SampleBuffer.index_bound b channel hch hlen
    unfold SampleBuffer.interp_indices at hidx
    simp only [List.mem_cons, List.mem_singleton, List.not_mem_nil, or_false] at hidx
    rcases hidx with h | h | h | h <;> subst h
    · split
      · exact hb _ (by omega)
      · exact hb _ (by omega)
    · exact hb _ (by omega)
    · exact hb _ (by omega)
    · exact hb _ (by omega)
  · intro b position channel hch hlen hpos
    exact SampleBuffer.index_bound b channel hch hlen _ hpos
  · refine ⟨⟨le_refl 1, by simp [SampleBuffer.new]⟩, ?_, ?_⟩
    · intro b hch
      exact ⟨hch, by simp [SampleBuffer.clear]⟩
    · intro b buf sr
      exact ⟨le_refl 1, by simp [SampleBuffer.load_update]⟩

/-- Witness for `C10_sample_buffer_reads` on a concrete rational buffer. -/
theorem C10_sample_buffer_reads_witness :
    ((SampleBuffer.mk [1, 2, 3, 4, 5, 6] 1 44100 6 : SampleBuffer ℚ).get_sample (-1) 0 = 0 ∧
      (SampleBuffer.mk [1, 2, 3, 4, 5, 6] 1 44100 6 : SampleBuffer ℚ).get_sample_interpolated
        (-1) 0 = 0) ∧
    (∀ idx ∈ (SampleBuffer.mk [1, 2, 3, 4, 5, 6] 1 44100 6 : SampleBuffer ℚ).interp_indices
        (3 / 2) 0, idx < 6) ∧
    (SampleBuffer.mk [1, 2, 3, 4, 5, 6] 1 44100 6 : SampleBuffer ℚ).get_sample_interpolated
        (11 / 2) 0 =
      (SampleBuffer.mk [1, 2, 3, 4, 5, 6] 1 44100 6 : SampleBuffer ℚ).get_sample (11 / 2) 0 := by
  refine ⟨(C10_sample_buffer_reads (K := ℚ)).2.1 _ (-1) 0 (by norm_num), ?_, ?_⟩
  · have h := (C10_sample_buffer_reads (K := ℚ)).2.2.2.2.1
      (SampleBuffer.mk [1, 2, 3, 4, 5, 6] 1 44100 6) (3 / 2) 0
      (le_refl 1) (by simp) (by norm_num)
    simpa using h
  · exact (C10_sample_buffer_reads (K := ℚ)).2.2.2.1
      (SampleBuffer.mk [1, 2, 3, 4, 5, 6] 1 44100 6) (11 / 2) 0 (by norm_num; omega)

/-! ### Sampler voice (engine/modules/sampler.rs lines 45-94, 175-317, 403-680)

The render path multiplies positions by `2^(cents/1200)` pitch ratios, so the
voice state lives over `ℝ`; parameter-store values are rationals cast in. -/

/-- Model of `PlaybackMode` (sampler.rs lines 45-61). -/
inductive PlaybackMode where
  | OneShot
  | Loop
  | Keytrack
deriving DecidableEq

/-- Model of `PlaybackMode::from_index`. -/
def PlaybackMode.from_index (index : ℤ) : PlaybackMode :=
  if index = 0 then .OneShot
  else if index = 1 then .Loop
  else if index = 2 then .Keytrack
  else .OneShot

/-- Model of `LoopMode` (sampler.rs lines 63-77). -/
inductive LoopMode where
  | Forward
  | PingPong
deriving DecidableEq

/-- Model of `LoopMode::from_index`. -/
def LoopMode.from_index (index : ℤ) : LoopMode :=
  if index = 0 then .Forward
  else if index = 1 then .PingPong
  else .Forward

/-- Model of `RetrigMode` (sampler.rs lines 79-94). -/
inductive RetrigMode where
  | Immediate
  | End
  | Sync
deriving DecidableEq

/-- Model of `cents_to_ratio` (sampler.rs line 20): `2f32.powf(c / 1200.0)`. -/
noncomputable def cents_to_ratio (c : ℝ) : ℝ := (2 : ℝ) ^ (c / 1200)

/-- Model of `EnvelopeStage` (sampler.rs lines 189-196). -/
inductive EnvelopeStage where
  | Idle
  | Attack
  | Decay
  | Sustain
  | Release
deriving DecidableEq

/-- Model of the sampler `Envelope` (sampler.rs lines 176-187). -/
structure Envelope where
  sr : ℝ
  stage : EnvelopeStage
  level : ℝ
  target : ℝ
  rate : ℝ
  attack_ms : ℝ
  decay_ms : ℝ
  sustain_level : ℝ
  release_ms : ℝ

/-- Model of `Envelope::new` (sampler.rs lines 199-211). -/
noncomputable def Envelope.new (sr : ℝ) : Envelope :=
  { sr := sr, stage := .Idle, level := 0, target := 0, rate := 0,
    attack_ms := 10, decay_ms := 100, sustain_level := 7 / 10, release_ms := 200 }

/-- Model of `Envelope::set_adsr` (sampler.rs lines 213-218). -/
noncomputable def Envelope.set_adsr (e : Envelope) (attack_ms decay_ms sustain_level release_ms : ℝ) :
    Envelope :=
  { e with
    attack_ms := max attack_ms 1, decay_ms := max decay_ms 1,
    sustain_level := rclamp sustain_level 0 1, release_ms := max release_ms 1 }

/-- Model of `Envelope::note_on` (sampler.rs lines 220-224). -/
noncomputable def Envelope.note_on (e : Envelope) : Envelope :=
  { e with stage := .Attack, target := 1, rate := 1 / (e.attack_ms * (1 / 1000) * e.sr) }

/-- Model of `Envelope::note_off` (sampler.rs lines 226-230). -/
noncomputable def Envelope.note_off (e : Envelope) : Envelope :=
  { e with stage := .Release, target := 0, rate := 1 / (e.release_ms * (1 / 1000) * e.sr) }

/-- Model of `Envelope::ensure_release` (sampler.rs lines 233-238). -/
noncomputable def Envelope.ensure_release (e : Envelope) : Envelope :=
  if e.stage = .Release ∨ e.stage = .Idle then e else e.note_off

/-- Model of `Envelope::is_active` (sampler.rs lines 273-275). -/
def Envelope.is_active (e : Envelope) : Bool :=
  decide (e.stage ≠ EnvelopeStage.Idle)

/-- Model of `Envelope::process` (sampler.rs lines 240-271). -/
noncomputable def Envelope.process (e : Envelope) : ℝ × Envelope :=
  match e.stage with
  | .Idle => (0, e)
  | .Attack =>
      let level := e.level + e.rate
      if 1 ≤ level then
        (1, { e with
              level := 1, stage := .Decay, target := e.sustain_level,
              rate := (1 - e.sustain_level) / (e.decay_ms * (1 / 1000) * e.sr) })
      else (level, { e with level := level })
  | .Decay =>
      let level := e.level - e.rate
      if level ≤ e.sustain_level then
        (e.sustain_level, { e with level := e.sustain_level, stage := .Sustain })
      else (level, { e with level := level })
  | .Sustain => (e.sustain_level, e)
  | .Release =>
      let level := e.level - e.rate
      if level ≤ 0 then (0, { e with level := 0, stage := .Idle })
      else (level, { e with level := level })

/-- Model of `SamplerParamKeys` (sampler.rs lines 691-711): precomputed
64-bit hash keys for the sampler parameter paths. -/
structure SamplerParamKeys where
  module_kind : ℕ
  sample_start : ℕ
  sample_end : ℕ
  pitch_semitones : ℕ
  pitch_cents : ℕ
  playback_mode : ℕ
  loop_start : ℕ
  loop_end : ℕ
  loop_mode : ℕ
  smoothness : ℕ
  retrig_mode : ℕ
  attack : ℕ
  decay : ℕ
  sustain : ℕ
  release : ℕ

/-- Model of `SamplerVoice` (sampler.rs lines 279-317). -/
structure SamplerVoice where
  sr : ℝ
  note : ℕ
  velocity : ℝ
  gate : Bool
  just_triggered : Bool
  position : ℝ
  pitch_ratio : ℝ
  direction : ℝ
  envelope : Envelope
  declick_ramp : ℝ
  declick_target : ℝ
  declick_rate : ℝ
  retrig_pending : Bool
  retrig_mode : RetrigMode
  retrig_note : ℕ
  retrig_vel : ℝ
  last_beat_phase : ℝ
  beat_counter : ℕ
  last_step_idx : ℤ
  local_beats : ℝ
  next_trig_beats : ℝ
  last_interval_beats : ℝ
  stall_until_retrig : Bool
  trigger_serial : ℕ

/-- Model of `SamplerVoice::new` (sampler.rs lines 320-347). -/
noncomputable def SamplerVoice.new (sr : ℝ) : SamplerVoice :=
  { sr := sr, note := 60, velocity := 0, gate := false, just_triggered := false,
    position := 0, pitch_ratio := 1, direction := 1, envelope := Envelope.new sr,
    declick_ramp := 1, declick_target := 1, declick_rate := 0,
    retrig_pending := false, retrig_mode := .Immediate, retrig_note := 60,
    retrig_vel := 8 / 10, last_beat_phase := 0, beat_counter := 0,
    last_step_idx := -1, local_beats := 0, next_trig_beats := 0,
    last_interval_beats := 0, stall_until_retrig := false, trigger_serial := 0 }

/-- Model of `SamplerVoice::note_on` (sampler.rs lines 349-363). -/
noncomputable def SamplerVoice.note_on (v : SamplerVoice) (note : ℕ) (velocity : ℝ) : SamplerVoice :=
  { v with
    note := note, velocity := rclamp velocity 0 1, gate := true,
    just_triggered := true, position := 0, direction := 1,
    stall_until_retrig := false, local_beats := 0, next_trig_beats := 0,
    last_interval_beats := 0 }

/-- Model of `SamplerVoice::note_off` (sampler.rs lines 365-369). -/
noncomputable def SamplerVoice.note_off (v : SamplerVoice) (_note : ℕ) : SamplerVoice :=
  { v with gate := false }

/-- The denominator table of the retrigger scheduler (sampler.rs lines 479,
570). -/
noncomputable def denom_table : List ℝ := [0, 1, 2, 4, 8, 16, 32, 64]

/-- Closed form of the rescheduling loop at sampler.rs line 506
(`let mut next = next_trig_beats; while local + 1e-9 >= next
{ next += interval }`): entered only under the guard interval > 0 with
local + 1e-9 >= next, the loop adds interval exactly
⌊(local + 1e-9 - next)/interval⌋ + 1 times, the least count making
next > local + 1e-9. -/
noncomputable def schedule_next (local_beats next0 interval : ℝ) : ℝ :=
  next0 + ((⌊(local_beats + 1 / 1000000000 - next0) / interval⌋ : ℝ) + 1) * interval

/-- The wrapped beat-phase delta of sampler.rs lines 472-473. -/
noncomputable def wrapDelta (beat_phase last : ℝ) : ℝ :=
  if beat_phase - last < 0 then beat_phase - last + 1 else beat_phase - last

/-- The tempo-sync interval in beats for a retrigger selection
(sampler.rs lines 479-482 and 570-573): interval = 4 / denom, with denom
looked up in the denominator table (clamped below at 1). -/
noncomputable def retrigInterval (sel : ℤ) : ℝ :=
  4 / max (denom_table.getD (min sel.toNat 7) 0) 1

/-- Local beat-clock advance (sampler.rs lines 471-475): add the wrapped
beat-phase delta when it is non-negative (the `is_finite` check is vacuous
over `ℝ`). -/
noncomputable def SamplerVoice.clock_tick (self : SamplerVoice) (beat_phase : ℝ) :
    SamplerVoice :=
  if 0 ≤ wrapDelta beat_phase self.last_beat_phase then
    { self with local_beats := self.local_beats + wrapDelta beat_phase self.last_beat_phase }
  else self

/-- Interval-change realignment (sampler.rs lines 484-493). -/
noncomputable def SamplerVoice.clock_realign (self : SamplerVoice) (interval_beats : ℝ) :
    SamplerVoice :=
  if 1 / 1000000 < |self.last_interval_beats - interval_beats| then
    if 0 < interval_beats then
      { self with
        next_trig_beats := (⌈self.local_beats / interval_beats⌉ : ℝ) * interval_beats,
        last_interval_beats := interval_beats }
    else { self with next_trig_beats := 0, last_interval_beats := interval_beats }
  else self

/-- First-arm initialisation (sampler.rs lines 495-499). -/
noncomputable def SamplerVoice.clock_arm (self : SamplerVoice) (interval_beats : ℝ) :
    SamplerVoice :=
  if self.next_trig_beats ≤ 0 ∧ 0 < interval_beats then
    { self with next_trig_beats := interval_beats, last_interval_beats := interval_beats }
  else self

/-- Fire check and rescheduling (sampler.rs lines 501-508). -/
noncomputable def SamplerVoice.clock_fire (self : SamplerVoice) (interval_beats : ℝ) :
    Bool × SamplerVoice :=
  if 0 < interval_beats ∧ self.next_trig_beats ≤ self.local_beats + 1 / 1000000000 then
    (true, { self with
             next_trig_beats :=
               schedule_next self.local_beats self.next_trig_beats interval_beats })
  else (false, self)

/-- Model of the tempo-synced retrigger scheduling block of
`SamplerVoice::render` (sampler.rs lines 467-520): only Loop mode advances
the local clock and schedules; a non-tempo selection clears the schedule;
other playback modes reset the whole local clock state. -/
noncomputable def SamplerVoice.render_clock (self : SamplerVoice)
    (playback_mode : PlaybackMode) (retrig_sel : ℤ) (beat_phase : ℝ) :
    Bool × SamplerVoice :=
  if playback_mode = .Loop then
    if 1 ≤ retrig_sel then
      (((self.clock_tick beat_phase).clock_realign
          (retrigInterval retrig_sel)).clock_arm
          (retrigInterval retrig_sel)).clock_fire (retrigInterval retrig_sel)
    else
      (false, { self.clock_tick beat_phase with
                next_trig_beats := 0, last_interval_beats := 0 })
  else
    (false, { self with
              last_step_idx := -1, local_beats := 0,
              next_trig_beats := 0, last_interval_beats := 0 })

/-- The scheduled-retrigger reset block (sampler.rs lines 562-577): restart
at loop start, re-anchor the local clock to 0, and arm the next trigger
exactly one interval ahead. -/
noncomputable def SamplerVoice.loop_retrig_reset (self : SamplerVoice) (retrig_sel : ℤ)
    (beat_phase loop_start_pos : ℝ) : SamplerVoice :=
  { self with
    position := loop_start_pos, direction := 1, stall_until_retrig := false,
    local_beats := 0,
    next_trig_beats := if 0 < retrigInterval retrig_sel then retrigInterval retrig_sel else 0,
    last_interval_beats := retrigInterval retrig_sel,
    last_beat_phase := beat_phase }

/-- The Forward-loop output with the optional linear crossfade window near
loop end (sampler.rs lines 582-599); disabled when tempo-quantized. -/
noncomputable def SamplerVoice.loop_xfade_out (self : SamplerVoice)
    (buffer : SampleBuffer ℝ) (retrig_sel : ℤ)
    (loop_start_pos loop_end_pos smooth_samps : ℝ) : ℝ :=
  if ¬ 1 ≤ retrig_sel ∧ 1 ≤ smooth_samps then
    if loop_end_pos - smooth_samps ≤ self.position ∧ self.position ≤ loop_end_pos then
      buffer.get_sample_interpolated self.position 0 *
          (1 - rclamp ((self.position - (loop_end_pos - smooth_samps)) / smooth_samps) 0 1) +
        buffer.get_sample_interpolated
            (loop_start_pos + (self.position - (loop_end_pos - smooth_samps))) 0 *
          rclamp ((self.position - (loop_end_pos - smooth_samps)) / smooth_samps) 0 1
    else buffer.get_sample_interpolated self.position 0
  else buffer.get_sample_interpolated self.position 0

/-- Forward loop playback inside the region (sampler.rs lines 587-611):
advance; when passing loop end either stall (tempo-quantized) or wrap. -/
noncomputable def SamplerVoice.loop_forward_play (self : SamplerVoice)
    (buffer : SampleBuffer ℝ) (retrig_sel : ℤ)
    (loop_start_pos loop_end_pos smooth_samps : ℝ) : ℝ × SamplerVoice :=
  if loop_end_pos ≤ self.position + self.pitch_ratio * self.direction then
    if 1 ≤ retrig_sel then
      (self.loop_xfade_out buffer retrig_sel loop_start_pos loop_end_pos smooth_samps,
       { self with position := loop_end_pos, stall_until_retrig := true })
    else
      (self.loop_xfade_out buffer retrig_sel loop_start_pos loop_end_pos smooth_samps,
       { self with position :=
          loop_start_pos + (self.position + self.pitch_ratio * self.direction - loop_end_pos) })
  else
    (self.loop_xfade_out buffer retrig_sel loop_start_pos loop_end_pos smooth_samps,
     { self with position := self.position + self.pitch_ratio * self.direction })

/-- PingPong loop playback inside the region (sampler.rs lines 613-631):
tempo-quantized runs forward then stalls; otherwise bounce at the bounds. -/
noncomputable def SamplerVoice.loop_pingpong_play (self : SamplerVoice)
    (buffer : SampleBuffer ℝ) (retrig_sel : ℤ)
    (loop_start_pos loop_end_pos : ℝ) : ℝ × SamplerVoice :=
  if 1 ≤ retrig_sel then
    if loop_end_pos ≤ self.position + self.pitch_ratio then
      (buffer.get_sample_interpolated self.position 0,
       { self with position := loop_end_pos, stall_until_retrig := true })
    else
      (buffer.get_sample_interpolated self.position 0,
       { self with position := self.position + self.pitch_ratio })
  else
    if loop_end_pos ≤ self.position + self.pitch_ratio * self.direction then
      (buffer.get_sample_interpolated self.position 0,
       { self with
         direction := -1,
         position :=
           loop_end_pos - (self.position + self.pitch_ratio * self.direction - loop_end_pos) })
    else if self.position + self.pitch_ratio * self.direction ≤ loop_start_pos then
      (buffer.get_sample_interpolated self.position 0,
       { self with
         direction := 1,
         position :=
           loop_start_pos + (loop_start_pos - (self.position + self.pitch_ratio * self.direction)) })
    else
      (buffer.get_sample_interpolated self.position 0,
       { self with position := self.position + self.pitch_ratio * self.direction })

/-- Linear advance used by the out-of-region / OneShot / Keytrack paths
(sampler.rs lines 642-647, 655-660): read and advance while before the
region end, else start the envelope release. -/
noncomputable def SamplerVoice.outside_advance (self : SamplerVoice)
    (buffer : SampleBuffer ℝ) (end_pos : ℝ) : ℝ × SamplerVoice :=
  if self.position < end_pos then
    (buffer.get_sample_interpolated self.position 0,
     { self with position := self.position + self.pitch_ratio })
  else (0, { self with envelope := self.envelope.note_off })

/-- The OneShot advance (sampler.rs lines 544-551): like `outside_advance`
but region exhaustion idles the envelope instead of releasing it. -/
noncomputable def SamplerVoice.oneshot_advance (self : SamplerVoice)
    (buffer : SampleBuffer ℝ) (end_pos : ℝ) : ℝ × SamplerVoice :=
  if self.position < end_pos then
    (buffer.get_sample_interpolated self.position 0,
     { self with position := self.position + self.pitch_ratio })
  else (0, { self with envelope := { self.envelope with stage := .Idle, level := 0 } })

/-- Out-of-region Loop playback (sampler.rs lines 635-648). -/
noncomputable def SamplerVoice.loop_outside_play (self : SamplerVoice)
    (buffer : SampleBuffer ℝ) (retrig_now : Bool)
    (loop_start_pos end_pos : ℝ) : ℝ × SamplerVoice :=
  if retrig_now = true then
    ({ self with
       position := loop_start_pos, direction := 1,
       stall_until_retrig := false }).outside_advance buffer end_pos
  else self.outside_advance buffer end_pos

/-- The Loop-mode playback after the retrigger reset (sampler.rs lines
579-648): stall check, in-region Forward/PingPong play, or outside play. -/
noncomputable def SamplerVoice.loop_play_core (self : SamplerVoice)
    (buffer : SampleBuffer ℝ) (loop_mode : LoopMode) (retrig_sel : ℤ)
    (retrig_now : Bool) (loop_start_pos loop_end_pos end_pos smooth_samps : ℝ) :
    ℝ × SamplerVoice :=
  if 1 ≤ retrig_sel ∧ self.stall_until_retrig = true ∧ retrig_now = false then
    (0, self)
  else if loop_start_pos ≤ self.position ∧ self.position ≤ loop_end_pos then
    match loop_mode with
    | .Forward =>
        self.loop_forward_play buffer retrig_sel loop_start_pos loop_end_pos smooth_samps
    | .PingPong =>
        self.loop_pingpong_play buffer retrig_sel loop_start_pos loop_end_pos
  else self.loop_outside_play buffer retrig_now loop_start_pos end_pos

/-- Loop-mode playback (sampler.rs lines 553-648): apply the retrigger reset
when fired, then play. -/
noncomputable def SamplerVoice.loop_play (self : SamplerVoice)
    (buffer : SampleBuffer ℝ) (loop_mode : LoopMode) (retrig_sel : ℤ)
    (retrig_now : Bool) (beat_phase loop_start_pos loop_end_pos end_pos smooth_samps : ℝ) :
    ℝ × SamplerVoice :=
  SamplerVoice.loop_play_core
    (if retrig_now = true then
      self.loop_retrig_reset retrig_sel beat_phase loop_start_pos
     else self)
    buffer loop_mode retrig_sel retrig_now loop_start_pos loop_end_pos end_pos smooth_samps

/-- The crossfade window length in samples (sampler.rs lines 557-559):
smoothness in ms converted to samples, clamped to half the loop length. -/
noncomputable def smoothSamps (sr smoothness_ms loop_len : ℝ) : ℝ :=
  if loop_len * (1 / 2) < max (smoothness_ms * (1 / 1000) * sr) 0 then loop_len * (1 / 2)
  else max (smoothness_ms * (1 / 1000) * sr) 0

/-- Model of the playback branch of `SamplerVoice::render` (sampler.rs lines
534-662), taking the parameter-derived bounds computed earlier in render. -/
noncomputable def SamplerVoice.render_playback (self : SamplerVoice)
    (buffer : SampleBuffer ℝ) (playback_mode : PlaybackMode) (loop_mode : LoopMode)
    (retrig_sel : ℤ) (retrig_now : Bool) (beat_phase : ℝ)
    (start_pos end_pos loop_start loop_end smoothness_ms : ℝ) : ℝ × SamplerVoice :=
  match playback_mode with
  | .OneShot =>
      (if retrig_now = true then { self with position := start_pos, direction := 1 }
       else self).oneshot_advance buffer end_pos
  | .Loop =>
      self.loop_play buffer loop_mode retrig_sel retrig_now beat_phase
        (start_pos + loop_start * (end_pos - start_pos))
        (start_pos + loop_end * (end_pos - start_pos))
        end_pos
        (smoothSamps self.sr smoothness_ms
          (max (start_pos + loop_end * (end_pos - start_pos) -
            (start_pos + loop_start * (end_pos - start_pos))) 1))
  | .Keytrack =>
      (if retrig_now = true then { self with position := start_pos, direction := 1 }
       else self).outside_advance buffer end_pos

/-- The trimmed-region start (sampler.rs lines 409, 432). -/
noncomputable def samplerStartPos (params : ParamStore) (param_keys : SamplerParamKeys)
    (buffer : SampleBuffer ℝ) : ℝ :=
  rclamp ((params.get_f32_h param_keys.sample_start 0 : ℚ) : ℝ) 0 1 *
    (buffer.length_samples : ℝ)

/-- The trimmed-region end (sampler.rs lines 410, 433). -/
noncomputable def samplerEndPos (params : ParamStore) (param_keys : SamplerParamKeys)
    (buffer : SampleBuffer ℝ) : ℝ :=
  rclamp ((params.get_f32_h param_keys.sample_end 1 : ℚ) : ℝ) 0 1 *
    (buffer.length_samples : ℝ)

/-- The per-render pitch ratio (sampler.rs lines 436-446): 2^(total/12) with
the key offset from root note 60 multiplied in for Keytrack and Loop modes. -/
noncomputable def samplerPitchRatio (params : ParamStore) (param_keys : SamplerParamKeys)
    (note : ℕ) (playback_mode : PlaybackMode) : ℝ :=
  if playback_mode = .Keytrack ∨ playback_mode = .Loop then
    cents_to_ratio (((params.get_f32_h param_keys.pitch_semitones 0 : ℚ) +
      (params.get_f32_h param_keys.pitch_cents 0 : ℚ) / 100 : ℚ) * 100) *
      cents_to_ratio (((note : ℝ) - 60) * 100)
  else
    cents_to_ratio (((params.get_f32_h param_keys.pitch_semitones 0 : ℚ) +
      (params.get_f32_h param_keys.pitch_cents 0 : ℚ) / 100 : ℚ) * 100)

/-- The envelope-settings / pitch / fresh-trigger prelude of
`SamplerVoice::render` (sampler.rs lines 428-465). -/
noncomputable def SamplerVoice.render_prep (self : SamplerVoice)
    (playback_mode : PlaybackMode)
    (attack_ms decay_ms sustain release_ms pitch_ratio start_pos beat_phase : ℝ) :
    SamplerVoice :=
  if self.just_triggered = true then
    if playback_mode = .Loop ∨ playback_mode = .Keytrack then
      { self with
        envelope := (self.envelope.set_adsr attack_ms decay_ms sustain release_ms).note_on,
        pitch_ratio := pitch_ratio, position := start_pos, just_triggered := false,
        local_beats := 0, next_trig_beats := 0, last_interval_beats := 0,
        stall_until_retrig := false, last_beat_phase := beat_phase }
    else
      { self with
        envelope := { self.envelope.set_adsr attack_ms decay_ms sustain release_ms with
                      stage := .Sustain, level := 1 },
        pitch_ratio := pitch_ratio, position := start_pos, just_triggered := false,
        local_beats := 0, next_trig_beats := 0, last_interval_beats := 0,
        stall_until_retrig := false, last_beat_phase := beat_phase }
  else
    { self with
      envelope := self.envelope.set_adsr attack_ms decay_ms sustain release_ms,
      pitch_ratio := pitch_ratio }

/-- Release-on-lifted-gate (sampler.rs lines 523-526). -/
noncomputable def SamplerVoice.render_release_check (self : SamplerVoice)
    (playback_mode : PlaybackMode) : SamplerVoice :=
  if self.gate = false ∧ (playback_mode = .Loop ∨ playback_mode = .Keytrack) then
    { self with envelope := self.envelope.ensure_release }
  else self

/-- The envelope / velocity / de-click scaling tail of `SamplerVoice::render`
(sampler.rs lines 664-679). -/
noncomputable def SamplerVoice.render_finish (pr : ℝ × SamplerVoice)
    (playback_mode : PlaybackMode) : ℝ × SamplerVoice :=
  (pr.1 *
      (if playback_mode = .Loop ∨ playback_mode = .Keytrack then pr.2.envelope.process.1
       else 1) *
      pr.2.velocity *
      (pr.2.declick_ramp + (pr.2.declick_target - pr.2.declick_ramp) * pr.2.declick_rate),
   { pr.2 with
     envelope :=
       if playback_mode = .Loop ∨ playback_mode = .Keytrack then pr.2.envelope.process.2
       else { pr.2.envelope with level := 1, stage := .Sustain },
     declick_ramp :=
       pr.2.declick_ramp + (pr.2.declick_target - pr.2.declick_ramp) * pr.2.declick_rate })

/-- Model of `SamplerVoice::render` (sampler.rs lines 403-680): fetch and
clamp parameters, run the prelude, the tempo-synced retrigger clock, the
lifted-gate release, the finished-voice early-out, the playback branch and
the scaling tail. -/
noncomputable def SamplerVoice.render (self : SamplerVoice) (buffer : SampleBuffer ℝ)
    (params : ParamStore) (param_keys : SamplerParamKeys) (beat_phase : ℝ) :
    ℝ × SamplerVoice :=
  if buffer.is_empty = true then (0, self)
  else
    let playback_mode := PlaybackMode.from_index (params.get_i32_h param_keys.playback_mode 0)
    let loop_mode := LoopMode.from_index (params.get_i32_h param_keys.loop_mode 0)
    let retrig_sel := max (params.get_i32_h param_keys.retrig_mode 0) 0
    let prep := self.render_prep playback_mode
      ((params.get_f32_h param_keys.attack 10 : ℚ) : ℝ)
      ((params.get_f32_h param_keys.decay 100 : ℚ) : ℝ)
      ((params.get_f32_h param_keys.sustain (7 / 10) : ℚ) : ℝ)
      ((params.get_f32_h param_keys.release 200 : ℚ) : ℝ)
      (samplerPitchRatio params param_keys self.note playback_mode)
      (samplerStartPos params param_keys buffer) beat_phase
    let rn := prep.render_clock playback_mode retrig_sel beat_phase
    let afterClock :=
      SamplerVoice.render_release_check { rn.2 with last_beat_phase := beat_phase }
        playback_mode
    if afterClock.envelope.is_active = false ∧ afterClock.gate = false ∧
        ¬ playback_mode = .OneShot then
      (0, afterClock)
    else
      SamplerVoice.render_finish
        (afterClock.render_playback buffer playback_mode loop_mode retrig_sel rn.1
          beat_phase (samplerStartPos params param_keys buffer)
          (samplerEndPos params param_keys buffer)
          (rclamp ((params.get_f32_h param_keys.loop_start 0 : ℚ) : ℝ) 0 1)
          (rclamp ((params.get_f32_h param_keys.loop_end 1 : ℚ) : ℝ) 0 1)
          (rclamp ((params.get_f32_h param_keys.smoothness 0 : ℚ) : ℝ) 0 50))
        playback_mode

theorem retrigInterval_pos (sel : ℤ) : 0 < retrigInterval sel := by
  unfold retrigInterval
  have h1 : (0 : ℝ) < max (denom_table.getD (min sel.toNat 7) 0) 1 :=
    lt_of_lt_of_le zero_lt_one (le_max_right _ _)
  positivity

theorem wrapDelta_nonneg (beat_phase last : ℝ) (h1 : 0 ≤ beat_phase)
    (h2 : last < 1) : 0 ≤ wrapDelta beat_phase last := by
  unfold wrapDelta
  split
  · linarith
  · next h => linarith [not_lt.mp h]

theorem SamplerVoice.clock_tick_eq (v : SamplerVoice) (beat_phase : ℝ)
    (hd : 0 ≤ wrapDelta beat_phase v.last_beat_phase) :
    v.clock_tick beat_phase =
      { v with local_beats := v.local_beats + wrapDelta beat_phase v.last_beat_phase } := by
  unfold SamplerVoice.clock_tick
  rw [if_pos hd]

theorem SamplerVoice.clock_realign_steady (v : SamplerVoice) (i : ℝ)
    (h : v.last_interval_beats = i) : v.clock_realign i = v := by
  unfold SamplerVoice.clock_realign
  rw [h, sub_self, abs_zero, if_neg (by norm_num)]

theorem SamplerVoice.clock_arm_armed (v : SamplerVoice) (i : ℝ)
    (h : 0 < v.next_trig_beats) : v.clock_arm i = v := by
  unfold SamplerVoice.clock_arm
  rw [if_neg (fun hc => absurd hc.1 (not_le.mpr h))]

theorem SamplerVoice.clock_fire_no (v : SamplerVoice) (i : ℝ)
    (h : v.local_beats + 1 / 1000000000 < v.next_trig_beats) :
    v.clock_fire i = (false, v) := by
  unfold SamplerVoice.clock_fire
  rw [if_neg (fun hc => absurd hc.2 (not_le.mpr h))]

theorem SamplerVoice.clock_fire_yes (v : SamplerVoice) (i : ℝ) (hi : 0 < i)
    (h : v.next_trig_beats ≤ v.local_beats + 1 / 1000000000) :
    v.clock_fire i =
      (true, { v with
               next_trig_beats := schedule_next v.local_beats v.next_trig_beats i }) := by
  unfold SamplerVoice.clock_fire
  rw [if_pos ⟨hi, h⟩]

theorem SamplerVoice.render_clock_advance (v : SamplerVoice) (retrig_sel : ℤ)
    (beat_phase : ℝ) (hs : 1 ≤ retrig_sel)
    (hsteady : v.last_interval_beats = retrigInterval retrig_sel)
    (harmed : 0 < v.next_trig_beats)
    (hd : 0 ≤ wrapDelta beat_phase v.last_beat_phase)
    (hnofire : v.local_beats + wrapDelta beat_phase v.last_beat_phase
        + 1 / 1000000000 < v.next_trig_beats) :
    v.render_clock .Loop retrig_sel beat_phase =
      (false, { v with local_beats :=
        v.local_beats + wrapDelta beat_phase v.last_beat_phase }) := by
  unfold SamplerVoice.render_clock
  rw [if_pos rfl, if_pos hs, SamplerVoice.clock_tick_eq v beat_phase hd,
    SamplerVoice.clock_realign_steady _ _
      (show ({ v with local_beats := v.local_beats + wrapDelta beat_phase v.last_beat_phase }
        : SamplerVoice).last_interval_beats = retrigInterval retrig_sel from hsteady),
    SamplerVoice.clock_arm_armed _ _
      (show (0 : ℝ) < ({ v with local_beats :=
        v.local_beats + wrapDelta beat_phase v.last_beat_phase }
        : SamplerVoice).next_trig_beats from harmed),
    SamplerVoice.clock_fire_no _ _
      (show ({ v with local_beats := v.local_beats + wrapDelta beat_phase v.last_beat_phase }
          : SamplerVoice).local_beats + 1 / 1000000000 <
        ({ v with local_beats := v.local_beats + wrapDelta beat_phase v.last_beat_phase }
          : SamplerVoice).next_trig_beats from hnofire)]

theorem SamplerVoice.render_clock_fire (v : SamplerVoice) (retrig_sel : ℤ)
    (beat_phase : ℝ) (hs : 1 ≤ retrig_sel)
    (hsteady : v.last_interval_beats = retrigInterval retrig_sel)
    (harmed : 0 < v.next_trig_beats)
    (hd : 0 ≤ wrapDelta beat_phase v.last_beat_phase)
    (hfire : v.next_trig_beats ≤ v.local_beats + wrapDelta beat_phase v.last_beat_phase
        + 1 / 1000000000) :
    v.render_clock .Loop retrig_sel beat_phase =
      (true, { v with
        local_beats := v.local_beats + wrapDelta beat_phase v.last_beat_phase,
        next_trig_beats := schedule_next
          (v.local_beats + wrapDelta beat_phase v.last_beat_phase)
          v.next_trig_beats (retrigInterval retrig_sel) }) := by
  unfold SamplerVoice.render_clock
  rw [if_pos rfl, if_pos hs, SamplerVoice.clock_tick_eq v beat_phase hd,
    SamplerVoice.clock_realign_steady _ _
      (show ({ v with local_beats := v.local_beats + wrapDelta beat_phase v.last_beat_phase }
        : SamplerVoice).last_interval_beats = retrigInterval retrig_sel from hsteady),
    SamplerVoice.clock_arm_armed _ _
      (show (0 : ℝ) < ({ v with local_beats :=
        v.local_beats + wrapDelta beat_phase v.last_beat_phase }
        : SamplerVoice).next_trig_beats from harmed),
    SamplerVoice.clock_fire_yes _ _ (retrigInterval_pos retrig_sel)
      (show ({ v with local_beats := v.local_beats + wrapDelta beat_phase v.last_beat_phase }
          : SamplerVoice).next_trig_beats ≤
        ({ v with local_beats := v.local_beats + wrapDelta beat_phase v.last_beat_phase }
          : SamplerVoice).local_beats + 1 / 1000000000 from by
        exact le_trans hfire (le_of_eq rfl))]

theorem SamplerVoice.loop_xfade_tempo (v : SamplerVoice) (buffer : SampleBuffer ℝ)
    (sel : ℤ) (hs : 1 ≤ sel) (lsp lep sm : ℝ) :
    v.loop_xfade_out buffer sel lsp lep sm =
      buffer.get_sample_interpolated v.position 0 := by
  unfold SamplerVoice.loop_xfade_out
  rw [if_neg (fun hc => hc.1 hs)]

theorem SamplerVoice.loop_play_stall (v : SamplerVoice) (buffer : SampleBuffer ℝ)
    (lm : LoopMode) (sel : ℤ) (hs : 1 ≤ sel)
    (hstall : v.stall_until_retrig = true) (bp lsp lep ep sm : ℝ) :
    v.loop_play buffer lm sel false bp lsp lep ep sm = (0, v) := by
  unfold SamplerVoice.loop_play
  rw [if_neg (by simp)]
  unfold SamplerVoice.loop_play_core
  rw [if_pos ⟨hs, hstall, rfl⟩]

theorem SamplerVoice.loop_play_retrig_forward (v : SamplerVoice)
    (buffer : SampleBuffer ℝ) (sel : ℤ) (hs : 1 ≤ sel) (bp lsp lep ep sm : ℝ)
    (hregion : lsp ≤ lep) (hadv : lsp + v.pitch_ratio < lep) :
    v.loop_play buffer .Forward sel true bp lsp lep ep sm =
      (buffer.get_sample_interpolated lsp 0,
       { v.loop_retrig_reset sel bp lsp with position := lsp + v.pitch_ratio }) := by
  unfold SamplerVoice.loop_play
  rw [if_pos rfl]
  unfold SamplerVoice.loop_play_core
  rw [if_neg (fun hc => absurd hc.2.2 (by simp))]
  rw [if_pos (show lsp ≤ (v.loop_retrig_reset sel bp lsp).position ∧
      (v.loop_retrig_reset sel bp lsp).position ≤ lep from ⟨le_refl lsp, hregion⟩)]
  show (v.loop_retrig_reset sel bp lsp).loop_forward_play buffer sel lsp lep sm = _
  unfold SamplerVoice.loop_forward_play
  rw [if_neg (show ¬ lep ≤ (v.loop_retrig_reset sel bp lsp).position +
      (v.loop_retrig_reset sel bp lsp).pitch_ratio * (v.loop_retrig_reset sel bp lsp).direction
      from not_le.mpr (show lsp + v.pitch_ratio * 1 < lep from by rw [mul_one]; exact hadv))]
  rw [SamplerVoice.loop_xfade_tempo _ _ _ hs]
  show (buffer.get_sample_interpolated lsp 0, _) = _
  refine Prod.ext rfl ?_
  show ({ v.loop_retrig_reset sel bp lsp with position := lsp + v.pitch_ratio * 1 }
    : SamplerVoice) = _
  rw [mul_one]

theorem SamplerVoice.outside_advance_clock (v : SamplerVoice)
    (buffer : SampleBuffer ℝ) (ep : ℝ) :
    (v.outside_advance buffer ep).2.local_beats = v.local_beats ∧
    (v.outside_advance buffer ep).2.next_trig_beats = v.next_trig_beats := by
  unfold SamplerVoice.outside_advance
  split
  · exact ⟨rfl, rfl⟩
  · exact ⟨rfl, rfl⟩

theorem SamplerVoice.loop_forward_play_clock (v : SamplerVoice)
    (buffer : SampleBuffer ℝ) (sel : ℤ) (lsp lep sm : ℝ) :
    (v.loop_forward_play buffer sel lsp lep sm).2.local_beats = v.local_beats ∧
    (v.loop_forward_play buffer sel lsp lep sm).2.next_trig_beats = v.next_trig_beats := by
  unfold SamplerVoice.loop_forward_play
  split
  · split
    · exact ⟨rfl, rfl⟩
    · exact ⟨rfl, rfl⟩
  · exact ⟨rfl, rfl⟩

theorem SamplerVoice.loop_pingpong_play_clock (v : SamplerVoice)
    (buffer : SampleBuffer ℝ) (sel : ℤ) (lsp lep : ℝ) :
    (v.loop_pingpong_play buffer sel lsp lep).2.local_beats = v.local_beats ∧
    (v.loop_pingpong_play buffer sel lsp lep).2.next_trig_beats = v.next_trig_beats := by
  unfold SamplerVoice.loop_pingpong_play
  split
  · split
    · exact ⟨rfl, rfl⟩
    · exact ⟨rfl, rfl⟩
  · split
    · exact ⟨rfl, rfl⟩
    · split
      · exact ⟨rfl, rfl⟩
      · exact ⟨rfl, rfl⟩

theorem SamplerVoice.loop_play_noretrig_clock (v : SamplerVoice)
    (buffer : SampleBuffer ℝ) (lm : LoopMode) (sel : ℤ) (bp lsp lep ep sm : ℝ) :
    (v.loop_play buffer lm sel false bp lsp lep ep sm).2.local_beats = v.local_beats ∧
    (v.loop_play buffer lm sel false bp lsp lep ep sm).2.next_trig_beats =
      v.next_trig_beats := by
  unfold SamplerVoice.loop_play
  rw [if_neg (by simp)]
  unfold SamplerVoice.loop_play_core
  split
  · exact ⟨rfl, rfl⟩
  · split
    · cases lm
      · exact SamplerVoice.loop_forward_play_clock v buffer sel lsp lep sm
      · exact SamplerVoice.loop_pingpong_play_clock v buffer sel lsp lep
    · unfold SamplerVoice.loop_outside_play
      rw [if_neg (by simp)]
      exact SamplerVoice.outside_advance_clock v buffer ep

theorem SamplerVoice.render_finish_state (pr : ℝ × SamplerVoice)
    (playback_mode : PlaybackMode) :
    (SamplerVoice.render_finish pr playback_mode).2.local_beats = pr.2.local_beats ∧
    (SamplerVoice.render_finish pr playback_mode).2.next_trig_beats = pr.2.next_trig_beats ∧
    (SamplerVoice.render_finish pr playback_mode).2.position = pr.2.position := by
  unfold SamplerVoice.render_finish
  exact ⟨rfl, rfl, rfl⟩

theorem SamplerVoice.render_finish_silent (pr : ℝ × SamplerVoice)
    (playback_mode : PlaybackMode) (h : pr.1 = 0) :
    (SamplerVoice.render_finish pr playback_mode).1 = 0 := by
  unfold SamplerVoice.render_finish
  rw [h, zero_mul, zero_mul, zero_mul]

theorem SamplerVoice.render_prep_not_triggered (v : SamplerVoice)
    (playback_mode : PlaybackMode) (a d s r p sp bp : ℝ)
    (hjt : v.just_triggered = false) :
    v.render_prep playback_mode a d s r p sp bp =
      { v with envelope := v.envelope.set_adsr a d s r, pitch_ratio := p } := by
  unfold SamplerVoice.render_prep
  rw [if_neg (by rw [hjt]; simp)]

theorem SamplerVoice.render_release_check_gate (v : SamplerVoice)
    (playback_mode : PlaybackMode) (hg : v.gate = true) :
    v.render_release_check playback_mode = v := by
  unfold SamplerVoice.render_release_check
  rw [if_neg (fun hc => by rw [hg] at hc; exact Bool.noConfusion hc.1)]

theorem PlaybackMode.from_index_one : PlaybackMode.from_index 1 = .Loop := by
  norm_num [PlaybackMode.from_index]

/-- The absolute loop-start position computed at sampler.rs line 554. -/
noncomputable def samplerLoopStartPos (params : ParamStore) (param_keys : SamplerParamKeys)
    (buffer : SampleBuffer ℝ) : ℝ :=
  samplerStartPos params param_keys buffer +
    rclamp ((params.get_f32_h param_keys.loop_start 0 : ℚ) : ℝ) 0 1 *
      (samplerEndPos params param_keys buffer - samplerStartPos params param_keys buffer)

/-- The absolute loop-end position computed at sampler.rs line 555. -/
noncomputable def samplerLoopEndPos (params : ParamStore) (param_keys : SamplerParamKeys)
    (buffer : SampleBuffer ℝ) : ℝ :=
  samplerStartPos params param_keys buffer +
    rclamp ((params.get_f32_h param_keys.loop_end 1 : ℚ) : ℝ) 0 1 *
      (samplerEndPos params param_keys buffer - samplerStartPos params param_keys buffer)

theorem SamplerVoice.render_loop_eq (v : SamplerVoice) (buffer : SampleBuffer ℝ)
    (params : ParamStore) (param_keys : SamplerParamKeys) (beat_phase : ℝ)
    (hb : buffer.is_empty = false)
    (hmode : params.get_i32_h param_keys.playback_mode 0 = 1)
    (hs : 1 ≤ params.get_i32_h param_keys.retrig_mode 0)
    (hjt : v.just_triggered = false) (_hgate : v.gate = true)
    (rn : Bool × SamplerVoice)
    (hrn : ({ v with
        envelope := v.envelope.set_adsr
          ((params.get_f32_h param_keys.attack 10 : ℚ) : ℝ)
          ((params.get_f32_h param_keys.decay 100 : ℚ) : ℝ)
          ((params.get_f32_h param_keys.sustain (7 / 10) : ℚ) : ℝ)
          ((params.get_f32_h param_keys.release 200 : ℚ) : ℝ),
        pitch_ratio := samplerPitchRatio params param_keys v.note .Loop }
      : SamplerVoice).render_clock .Loop (params.get_i32_h param_keys.retrig_mode 0)
        beat_phase = rn)
    (hgate2 : rn.2.gate = true) :
    v.render buffer params param_keys beat_phase =
      SamplerVoice.render_finish
        (({ rn.2 with last_beat_phase := beat_phase }
          : SamplerVoice).render_playback buffer .Loop
          (LoopMode.from_index (params.get_i32_h param_keys.loop_mode 0))
          (params.get_i32_h param_keys.retrig_mode 0) rn.1 beat_phase
          (samplerStartPos params param_keys buffer)
          (samplerEndPos params param_keys buffer)
          (rclamp ((params.get_f32_h param_keys.loop_start 0 : ℚ) : ℝ) 0 1)
          (rclamp ((params.get_f32_h param_keys.loop_end 1 : ℚ) : ℝ) 0 1)
          (rclamp ((params.get_f32_h param_keys.smoothness 0 : ℚ) : ℝ) 0 50))
        .Loop := by
  have hmax : max (params.get_i32_h param_keys.retrig_mode 0) 0 =
      params.get_i32_h param_keys.retrig_mode 0 :=
    max_eq_left (le_trans (by norm_num) hs)
  simp only [SamplerVoice.render, hb, hmode, hmax, Bool.false_eq_true, if_false,
    PlaybackMode.from_index_one]
  rw [SamplerVoice.render_prep_not_triggered _ _ _ _ _ _ _ _ _ hjt, hrn]
  rw [SamplerVoice.render_release_check_gate _ _
    (show ({ rn.2 with last_beat_phase := beat_phase } : SamplerVoice).gate = true
      from hgate2)]
  rw [if_neg (fun hc => by
    rw [show ({ rn.2 with last_beat_phase := beat_phase } : SamplerVoice).gate = rn.2.gate
      from rfl, hgate2] at hc
    exact Bool.noConfusion hc.2.1)]

theorem LoopMode.from_index_zero : LoopMode.from_index 0 = .Forward := by
  norm_num [LoopMode.from_index]

theorem SamplerVoice.render_playback_loop (self : SamplerVoice) (buffer : SampleBuffer ℝ)
    (lm : LoopMode) (sel : ℤ) (rn : Bool) (bp sp ep ls le sm : ℝ) :
    self.render_playback buffer .Loop lm sel rn bp sp ep ls le sm =
      self.loop_play buffer lm sel rn bp (sp + ls * (ep - sp)) (sp + le * (ep - sp)) ep
        (smoothSamps self.sr sm (max (sp + le * (ep - sp) - (sp + ls * (ep - sp))) 1)) :=
  rfl

theorem SamplerVoice.loop_noretrig_finish_clock (w : SamplerVoice)
    (buffer : SampleBuffer ℝ) (lm : LoopMode) (sel : ℤ) (bp lsp lep ep sm : ℝ) :
    (SamplerVoice.render_finish (w.loop_play buffer lm sel false bp lsp lep ep sm)
      .Loop).2.local_beats = w.local_beats ∧
    (SamplerVoice.render_finish (w.loop_play buffer lm sel false bp lsp lep ep sm)
      .Loop).2.next_trig_beats = w.next_trig_beats := by
  constructor
  · rw [(SamplerVoice.render_finish_state _ _).1,
      (SamplerVoice.loop_play_noretrig_clock _ _ _ _ _ _ _ _ _).1]
  · rw [(SamplerVoice.render_finish_state _ _).2.1,
      (SamplerVoice.loop_play_noretrig_clock _ _ _ _ _ _ _ _ _).2]

theorem SamplerVoice.loop_retrig_finish (w : SamplerVoice) (buffer : SampleBuffer ℝ)
    (sel : ℤ) (hs : 1 ≤ sel) (bp lsp lep ep sm : ℝ)
    (hregion : lsp ≤ lep) (hadv : lsp + w.pitch_ratio < lep) :
    (SamplerVoice.render_finish (w.loop_play buffer .Forward sel true bp lsp lep ep sm)
      .Loop).2.local_beats = 0 ∧
    (SamplerVoice.render_finish (w.loop_play buffer .Forward sel true bp lsp lep ep sm)
      .Loop).2.next_trig_beats = retrigInterval sel ∧
    (SamplerVoice.render_finish (w.loop_play buffer .Forward sel true bp lsp lep ep sm)
      .Loop).2.position = lsp + w.pitch_ratio := by
  rw [SamplerVoice.loop_play_retrig_forward _ _ _ hs _ _ _ _ _ hregion hadv]
  refine ⟨?_, ?_, ?_⟩
  · rw [(SamplerVoice.render_finish_state _ _).1]
    rfl
  · rw [(SamplerVoice.render_finish_state _ _).2.1]
    exact if_pos (retrigInterval_pos _)
  · rw [(SamplerVoice.render_finish_state _ _).2.2]

theorem SamplerVoice.loop_stall_finish (w : SamplerVoice) (buffer : SampleBuffer ℝ)
    (lm : LoopMode) (sel : ℤ) (hs : 1 ≤ sel)
    (hstall : w.stall_until_retrig = true) (bp lsp lep ep sm : ℝ) :
    (SamplerVoice.render_finish (w.loop_play buffer lm sel false bp lsp lep ep sm)
      .Loop).1 = 0 ∧
    (SamplerVoice.render_finish (w.loop_play buffer lm sel false bp lsp lep ep sm)
      .Loop).2.position = w.position := by
  rw [SamplerVoice.loop_play_stall _ _ _ _ hs hstall]
  exact ⟨SamplerVoice.render_finish_silent _ _ rfl,
    (SamplerVoice.render_finish_state _ _).2.2⟩

set_option maxHeartbeats 3200000 in
/-- C6: for a sampler voice in Loop mode with a tempo-synced retrig_mode
(selection >= 1), steady interval and an armed scheduler: (a) on a sample
where the trigger does not fire, the voice-local beat clock increases by
exactly the wrapped non-negative delta of the global beat phase and the
schedule is untouched; (b) on a sample where the local clock reaches
next_trig_beats (Forward loop, well-formed region, no overrun), the position
is reset to the loop-start position (then advanced one pitch step), the local
clock is re-anchored to 0, and the next trigger is scheduled exactly one
interval (4/denom beats) later; (c) if the voice has stalled at the loop end
and no tick fires, it outputs exact silence and its position is frozen. -/
theorem C6_sampler_tempo_retrig (v : SamplerVoice) (buffer : SampleBuffer ℝ)
    (params : ParamStore) (param_keys : SamplerParamKeys) (beat_phase : ℝ)
    (hb : buffer.is_empty = false)
    (hmode : params.get_i32_h param_keys.playback_mode 0 = 1)
    (hs : 1 ≤ params.get_i32_h param_keys.retrig_mode 0)
    (hjt : v.just_triggered = false) (hgate : v.gate = true)
    (hsteady : v.last_interval_beats =
      retrigInterval (params.get_i32_h param_keys.retrig_mode 0))
    (harmed : 0 < v.next_trig_beats)
    (hd : 0 ≤ wrapDelta beat_phase v.last_beat_phase) :
    ((v.local_beats + wrapDelta beat_phase v.last_beat_phase + 1 / 1000000000 <
        v.next_trig_beats) →
      (v.render buffer params param_keys beat_phase).2.local_beats =
        v.local_beats + wrapDelta beat_phase v.last_beat_phase ∧
      (v.render buffer params param_keys beat_phase).2.next_trig_beats =
        v.next_trig_beats) ∧
    ((v.next_trig_beats ≤ v.local_beats + wrapDelta beat_phase v.last_beat_phase
        + 1 / 1000000000) →
      params.get_i32_h param_keys.loop_mode 0 = 0 →
      samplerLoopStartPos params param_keys buffer ≤
        samplerLoopEndPos params param_keys buffer →
      samplerLoopStartPos params param_keys buffer +
          samplerPitchRatio params param_keys v.note .Loop <
        samplerLoopEndPos params param_keys buffer →
      (v.render buffer params param_keys beat_phase).2.local_beats = 0 ∧
      (v.render buffer params param_keys beat_phase).2.next_trig_beats =
        retrigInterval (params.get_i32_h param_keys.retrig_mode 0) ∧
      (v.render buffer params param_keys beat_phase).2.position =
        samplerLoopStartPos params param_keys buffer +
          samplerPitchRatio params param_keys v.note .Loop) ∧
    ((v.local_beats + wrapDelta beat_phase v.last_beat_phase + 1 / 1000000000 <
        v.next_trig_beats) →
      v.stall_until_retrig = true →
      (v.render buffer params param_keys beat_phase).1 = 0 ∧
      (v.render buffer params param_keys beat_phase).2.position = v.position) := by
  refine ⟨?_, ?_, ?_⟩
  · intro hnofire
    have hclock := SamplerVoice.render_clock_advance
      { v with
        envelope := v.envelope.set_adsr
          ((params.get_f32_h param_keys.attack 10 : ℚ) : ℝ)
          ((params.get_f32_h param_keys.decay 100 : ℚ) : ℝ)
          ((params.get_f32_h param_keys.sustain (7 / 10) : ℚ) : ℝ)
          ((params.get_f32_h param_keys.release 200 : ℚ) : ℝ),
        pitch_ratio := samplerPitchRatio params param_keys v.note .Loop }
      (params.get_i32_h param_keys.retrig_mode 0) beat_phase hs hsteady harmed hd hnofire
    have heq := SamplerVoice.render_loop_eq v buffer params param_keys beat_phase hb hmode
      hs hjt hgate _ hclock hgate
    rw [heq, SamplerVoice.render_playback_loop]
    exact SamplerVoice.loop_noretrig_finish_clock _ _ _ _ _ _ _ _ _
  · intro hfire hlm hregion hadv
    have hclock := SamplerVoice.render_clock_fire
      { v with
        envelope := v.envelope.set_adsr
          ((params.get_f32_h param_keys.attack 10 : ℚ) : ℝ)
          ((params.get_f32_h param_keys.decay 100 : ℚ) : ℝ)
          ((params.get_f32_h param_keys.sustain (7 / 10) : ℚ) : ℝ)
          ((params.get_f32_h param_keys.release 200 : ℚ) : ℝ),
        pitch_ratio := samplerPitchRatio params param_keys v.note .Loop }
      (params.get_i32_h param_keys.retrig_mode 0) beat_phase hs hsteady harmed hd hfire
    have heq := SamplerVoice.render_loop_eq v buffer params param_keys beat_phase hb hmode
      hs hjt hgate _ hclock hgate
    rw [heq, SamplerVoice.render_playback_loop, hlm, LoopMode.from_index_zero]
    exact SamplerVoice.loop_retrig_finish _ _ _ hs _ _ _ _ _ hregion hadv
  · intro hnofire hstall
    have hclock := SamplerVoice.render_clock_advance
      { v with
        envelope := v.envelope.set_adsr
          ((params.get_f32_h param_keys.attack 10 : ℚ) : ℝ)
          ((params.get_f32_h param_keys.decay 100 : ℚ) : ℝ)
          ((params.get_f32_h param_keys.sustain (7 / 10) : ℚ) : ℝ)
          ((params.get_f32_h param_keys.release 200 : ℚ) : ℝ),
        pitch_ratio := samplerPitchRatio params param_keys v.note .Loop }
      (params.get_i32_h param_keys.retrig_mode 0) beat_phase hs hsteady harmed hd hnofire
    have heq := SamplerVoice.render_loop_eq v buffer params param_keys beat_phase hb hmode
      hs hjt hgate _ hclock hgate
    rw [heq, SamplerVoice.render_playback_loop]
    refine SamplerVoice.loop_stall_finish _ _ _ _ hs ?_ _ _ _ _ _
    exact hstall

theorem cents_to_ratio_zero : cents_to_ratio 0 = 1 := by
  unfold cents_to_ratio
  rw [zero_div, Real.rpow_zero]

/-- Concrete 10-frame mono buffer for the C6 witness. -/
noncomputable def c6Buffer : SampleBuffer ℝ :=
  { data := [1, 0, 0, 0, 0, 0, 0, 0, 0, 0], channels := 1,
    sample_rate := 44100, length_samples := 10 }

/-- Concrete sampler key assignment for the C6 witness. -/
def c6Keys : SamplerParamKeys :=
  { module_kind := 1, sample_start := 2, sample_end := 3, pitch_semitones := 4,
    pitch_cents := 5, playback_mode := 6, loop_start := 7, loop_end := 8,
    loop_mode := 9, smoothness := 10, retrig_mode := 11, attack := 12,
    decay := 13, sustain := 14, release := 15 }

/-- Concrete parameter store for the C6 witness: Loop playback, 1/4-note
tempo-synced retrigger, all other sampler parameters at their defaults. -/
def c6Params : ParamStore :=
  { map := fun _ => none, lag_ms := 5 / 1000,
    map_h := fun k =>
      if k = 6 then some (.I32 1) else if k = 11 then some (.I32 3) else none }

/-- Concrete held Loop voice with a steady armed 1-beat schedule. -/
noncomputable def c6Voice : SamplerVoice :=
  { sr := 44100, note := 60, velocity := 1, gate := true, just_triggered := false,
    position := 2, pitch_ratio := 1, direction := 1, envelope := Envelope.new 44100,
    declick_ramp := 1, declick_target := 1, declick_rate := 0,
    retrig_pending := false, retrig_mode := .Immediate, retrig_note := 60,
    retrig_vel := 8 / 10, last_beat_phase := 0, beat_counter := 0,
    last_step_idx := -1, local_beats := 0, next_trig_beats := 1,
    last_interval_beats := 1, stall_until_retrig := false, trigger_serial := 1 }

theorem c6_interval_eq : retrigInterval (c6Params.get_i32_h c6Keys.retrig_mode 0) = 1 := by
  rw [show c6Params.get_i32_h c6Keys.retrig_mode 0 = 3 from rfl]
  unfold retrigInterval
  rw [show min (Int.toNat 3) 7 = 3 from rfl,
    show denom_table.getD 3 0 = (4 : ℝ) from rfl]
  norm_num

theorem c6_pitch_eq : samplerPitchRatio c6Params c6Keys 60 .Loop = 1 := by
  unfold samplerPitchRatio
  rw [if_pos (Or.inr rfl)]
  rw [show (c6Params.get_f32_h c6Keys.pitch_semitones 0 : ℚ) = 0 from rfl,
    show (c6Params.get_f32_h c6Keys.pitch_cents 0 : ℚ) = 0 from rfl]
  rw [show ((((0 : ℚ) + (0 : ℚ) / 100) : ℚ) : ℝ) * 100 = 0 by push_cast; norm_num]
  rw [show (((60 : ℕ) : ℝ) - 60) * 100 = 0 by push_cast; norm_num]
  simp [cents_to_ratio_zero]

theorem c6_lsp_eq : samplerLoopStartPos c6Params c6Keys c6Buffer = 0 := by
  unfold samplerLoopStartPos samplerStartPos samplerEndPos
  rw [show (c6Params.get_f32_h c6Keys.sample_start 0 : ℚ) = 0 from rfl,
    show (c6Params.get_f32_h c6Keys.loop_start 0 : ℚ) = 0 from rfl]
  norm_num [rclamp]

theorem c6_lep_eq : samplerLoopEndPos c6Params c6Keys c6Buffer = 10 := by
  unfold samplerLoopEndPos samplerStartPos samplerEndPos
  rw [show (c6Params.get_f32_h c6Keys.sample_start 0 : ℚ) = 0 from rfl,
    show (c6Params.get_f32_h c6Keys.sample_end 1 : ℚ) = 1 from rfl,
    show (c6Params.get_f32_h c6Keys.loop_end 1 : ℚ) = 1 from rfl]
  norm_num [rclamp, c6Buffer]

/-- Witness for `C6_sampler_tempo_retrig` at the concrete voice, buffer and
parameter store: a non-firing sample advances the local clock by the wrapped
phase delta; a firing sample resets to the loop start and re-arms one
interval ahead; a stalled sample is silent with a frozen position. -/
theorem C6_sampler_tempo_retrig_witness :
    ((c6Voice.render c6Buffer c6Params c6Keys (1 / 4)).2.local_beats =
      c6Voice.local_beats + wrapDelta (1 / 4) c6Voice.last_beat_phase) ∧
    (({ c6Voice with local_beats := 9 / 10 } :
        SamplerVoice).render c6Buffer c6Params c6Keys (1 / 4)).2.local_beats = 0 ∧
    ((({ c6Voice with stall_until_retrig := true } :
        SamplerVoice).render c6Buffer c6Params c6Keys (1 / 4)).1 = 0) := by
  have hd : (0 : ℝ) ≤ wrapDelta (1 / 4) c6Voice.last_beat_phase := by
    norm_num [wrapDelta, c6Voice]
  have hw : wrapDelta (1 / 4) c6Voice.last_beat_phase = 1 / 4 := by
    norm_num [wrapDelta, c6Voice]
  refine ⟨?_, ?_, ?_⟩
  · exact (C6_sampler_tempo_retrig c6Voice c6Buffer c6Params c6Keys (1 / 4) rfl rfl
      (by decide) rfl rfl (by rw [c6_interval_eq]; exact rfl) (by norm_num [c6Voice]) hd
      ).1 (by rw [hw]; norm_num [c6Voice]) |>.1
  · exact (C6_sampler_tempo_retrig { c6Voice with local_beats := 9 / 10 } c6Buffer
      c6Params c6Keys (1 / 4) rfl rfl (by decide) rfl rfl (by rw [c6_interval_eq]; exact rfl)
      (by norm_num [c6Voice]) hd
      ).2.1 (by rw [hw]; norm_num [c6Voice]) rfl
      (by rw [c6_lsp_eq, c6_lep_eq]; norm_num)
      (by rw [c6_lsp_eq, c6_lep_eq, show ({ c6Voice with local_beats := (9 : ℝ) / 10 }
          : SamplerVoice).note = 60 from rfl, c6_pitch_eq]; norm_num) |>.1
  · exact (C6_sampler_tempo_retrig { c6Voice with stall_until_retrig := true } c6Buffer
      c6Params c6Keys (1 / 4) rfl rfl (by decide) rfl rfl (by rw [c6_interval_eq]; exact rfl)
      (by norm_num [c6Voice]) hd
      ).2.2 (by rw [hw]; norm_num [c6Voice]) rfl |>.1

/-! ### Per-part EQ and mixer stage (engine/graph.rs lines 44-87, 2198-2241) -/

/-- Model of `Biquad` (graph.rs lines 49-58). -/
structure Biquad where
  b0 : ℝ
  b1 : ℝ
  b2 : ℝ
  a1 : ℝ
  a2 : ℝ
  z1 : ℝ
  z2 : ℝ

/-- Model of `Biquad::new` (graph.rs line 61). -/
noncomputable def Biquad.new : Biquad := ⟨1, 0, 0, 0, 0, 0, 0⟩

/-- Model of `Biquad::set_peaking` (graph.rs lines 62-81): identity (bypass)
coefficients when |gain_db| < 1e-3, else normalized RBJ peaking
coefficients; the z1/z2 state is preserved either way. -/
noncomputable def Biquad.set_peaking (bq : Biquad) (sr freq q gain_db : ℝ) : Biquad :=
  if |gain_db| < 1 / 1000 then
    { bq with b0 := 1, b1 := 0, b2 := 0, a1 := 0, a2 := 0 }
  else
    let a := (10 : ℝ) ^ (gain_db / 40)
    let w0 := 2 * Real.pi * rclamp (freq / sr) 0 (49 / 100)
    let alpha := Real.sin w0 / (2 * max q (1 / 10))
    let cosw0 := Real.cos w0
    let na0 := 1 + alpha / a
    { bq with
      b0 := (1 + alpha * a) / na0, b1 := -2 * cosw0 / na0,
      b2 := (1 - alpha * a) / na0, a1 := -2 * cosw0 / na0,
      a2 := (1 - alpha / a) / na0 }

/-- Model of `Biquad::process` (graph.rs lines 82-87). -/
noncomputable def Biquad.process (bq : Biquad) (x : ℝ) : ℝ × Biquad :=
  (bq.b0 * x + bq.z1,
   { bq with
     z1 := bq.b1 * x - bq.a1 * (bq.b0 * x + bq.z1) + bq.z2,
     z2 := bq.b2 * x - bq.a2 * (bq.b0 * x + bq.z1) })

/-- The coefficient-update loop of the EQ stage (graph.rs lines 2201-2209):
per band, refresh the peaking coefficients only when the clamped gain moved
by more than 1e-6 dB since the last update. -/
noncomputable def Part.eq_update_coeffs (params : ParamStore) (eq_keys : List ℕ)
    (eq_centers : List ℝ) (sr : ℝ) (bands : List Biquad) (last_db : List ℝ) :
    List Biquad × List ℝ :=
  (List.range 8).foldl
    (fun (acc : List Biquad × List ℝ) i =>
      if 1 / 1000000 <
          |rclamp ((params.get_f32_h (eq_keys.getD i 0) 0 : ℚ) : ℝ) (-12) 12 -
            acc.2.getD i 0| then
        (acc.1.set i ((acc.1.getD i Biquad.new).set_peaking sr (eq_centers.getD i 0) 1
          (rclamp ((params.get_f32_h (eq_keys.getD i 0) 0 : ℚ) : ℝ) (-12) 12)),
         acc.2.set i (rclamp ((params.get_f32_h (eq_keys.getD i 0) 0 : ℚ) : ℝ) (-12) 12))
      else acc)
    (bands, last_db)

/-- The serial biquad chain of the EQ stage (graph.rs line 2211). -/
noncomputable def Part.eq_process_chain (x : ℝ) (bands : List Biquad) :
    ℝ × List Biquad :=
  (List.range 8).foldl
    (fun (acc : ℝ × List Biquad) i =>
      ((( acc.2.getD i Biquad.new).process acc.1).1,
       acc.2.set i (((acc.2.getD i Biquad.new).process acc.1).2)))
    (x, bands)

open Classical in
/-- Model of the 8-band EQ stage of `Part::render` (graph.rs lines
2198-2212): update coefficients per band, then run the biquad chain only if
some band's clamped gain exceeds 1e-3 dB in magnitude — otherwise the input
passes through untouched. -/
noncomputable def Part.eq_stage (params : ParamStore) (eq_keys : List ℕ)
    (eq_centers : List ℝ) (sr : ℝ) (bands : List Biquad) (last_db : List ℝ)
    (x : ℝ) : ℝ × List Biquad × List ℝ :=
  if ∃ i < 8,
      1 / 1000 < |rclamp ((params.get_f32_h (eq_keys.getD i 0) 0 : ℚ) : ℝ) (-12) 12| then
    ((Part.eq_process_chain x
        (Part.eq_update_coeffs params eq_keys eq_centers sr bands last_db).1).1,
     (Part.eq_process_chain x
        (Part.eq_update_coeffs params eq_keys eq_centers sr bands last_db).1).2,
     (Part.eq_update_coeffs params eq_keys eq_centers sr bands last_db).2)
  else
    (x,
     (Part.eq_update_coeffs params eq_keys eq_centers sr bands last_db).1,
     (Part.eq_update_coeffs params eq_keys eq_centers sr bands last_db).2)

/-- Model of the Haas delay ring buffer of `Part` (graph.rs fields haas_buf,
haas_wr, haas_d, haas_len). -/
structure HaasState where
  haas_buf : List ℝ
  haas_wr : ℕ
  haas_d : ℕ
  haas_len : ℕ

/-- The equal-power pan and volume stage of `Part::render` (graph.rs lines
2213-2220): theta = (pan+1)·π/4, L = out·cos·vol, R = out·sin·vol. -/
noncomputable def Part.pan_volume (params : ParamStore) (mix_pan mix_volume : ℕ)
    (out : ℝ) : ℝ × ℝ :=
  (out * Real.cos ((rclamp ((params.get_f32_h mix_pan 0 : ℚ) : ℝ) (-1) 1 + 1) *
      (Real.pi / 4)) *
    rclamp ((params.get_f32_h mix_volume 1 : ℚ) : ℝ) 0 1,
   out * Real.sin ((rclamp ((params.get_f32_h mix_pan 0 : ℚ) : ℝ) (-1) 1 + 1) *
      (Real.pi / 4)) *
    rclamp ((params.get_f32_h mix_volume 1 : ℚ) : ℝ) 0 1)

/-- The Haas widener stage on the left channel (graph.rs lines 2221-2233):
above the 0.0005 threshold the delayed sample is mixed in; either way the
write pointer advances so the buffer never holds stale samples. -/
noncomputable def Part.haas_stage (params : ParamStore) (mix_haas : ℕ) (l : ℝ)
    (hs : HaasState) : ℝ × HaasState :=
  if 1 / 2000 < rclamp ((params.get_f32_h mix_haas 0 : ℚ) : ℝ) 0 1 then
    (l * (1 - rclamp ((params.get_f32_h mix_haas 0 : ℚ) : ℝ) 0 1) +
      hs.haas_buf.getD
        (if hs.haas_d ≤ hs.haas_wr then hs.haas_wr - hs.haas_d
         else hs.haas_wr + hs.haas_len - hs.haas_d) 0 *
        rclamp ((params.get_f32_h mix_haas 0 : ℚ) : ℝ) 0 1,
     { hs with haas_buf := hs.haas_buf.set hs.haas_wr l,
               haas_wr := if hs.haas_len ≤ hs.haas_wr + 1 then 0 else hs.haas_wr + 1 })
  else
    (l,
     { hs with haas_buf := hs.haas_buf.set hs.haas_wr l,
               haas_wr := if hs.haas_len ≤ hs.haas_wr + 1 then 0 else hs.haas_wr + 1 })

/-- The soft-compressor stage (graph.rs lines 2234-2240). -/
noncomputable def Part.comp_stage (params : ParamStore) (mix_comp : ℕ) (l r : ℝ) :
    ℝ × ℝ :=
  if 1 / 1000 < rclamp ((params.get_f32_h mix_comp 0 : ℚ) : ℝ) 0 1 then
    (Real.tanh (l * (1 + 8 * rclamp ((params.get_f32_h mix_comp 0 : ℚ) : ℝ) 0 1)) *
       (1 / Real.tanh (1 + 8 * rclamp ((params.get_f32_h mix_comp 0 : ℚ) : ℝ) 0 1)),
     Real.tanh (r * (1 + 8 * rclamp ((params.get_f32_h mix_comp 0 : ℚ) : ℝ) 0 1)) *
       (1 / Real.tanh (1 + 8 * rclamp ((params.get_f32_h mix_comp 0 : ℚ) : ℝ) 0 1)))
  else (l, r)

/-- Model of the mono-to-stereo mixer tail of `Part::render` (graph.rs lines
2213-2241): pan and volume, then Haas on the left channel, then the soft
compressor. -/
noncomputable def Part.pan_mix_stage (params : ParamStore)
    (mix_pan mix_volume mix_haas mix_comp : ℕ) (out : ℝ) (hs : HaasState) :
    (ℝ × ℝ) × HaasState :=
  (Part.comp_stage params mix_comp
     (Part.haas_stage params mix_haas
       (Part.pan_volume params mix_pan mix_volume out).1 hs).1
     (Part.pan_volume params mix_pan mix_volume out).2,
   (Part.haas_stage params mix_haas
     (Part.pan_volume params mix_pan mix_volume out).1 hs).2)

theorem rclamp_le_bound (x c : ℝ) (hx : x ≤ c) (hc : 0 ≤ c) (hc1 : c ≤ 1) :
    rclamp x 0 1 ≤ c := by
  unfold rclamp
  split
  · exact hc
  · split
    · next h1 h2 => linarith
    · exact hx

/-- C7: with volume 1 and the Haas and compressor stages disabled (their
parameters at or below the 0.0005 / 0.001 engage thresholds), the per-part
mixer pan stage produces exactly L = x·cos θ and R = x·sin θ with
θ = (pan+1)·π/4, hence L² + R² = x² exactly, and in particular within 1e-5. -/
theorem C7_equal_power_pan (params : ParamStore) (mix_pan mix_volume mix_haas mix_comp : ℕ)
    (x : ℝ) (hs : HaasState)
    (hv : params.get_f32_h mix_volume 1 = 1)
    (hh : (params.get_f32_h mix_haas 0 : ℚ) ≤ 1 / 2000)
    (hc : (params.get_f32_h mix_comp 0 : ℚ) ≤ 1 / 1000) :
    (Part.pan_mix_stage params mix_pan mix_volume mix_haas mix_comp x hs).1 =
      (x * Real.cos ((rclamp ((params.get_f32_h mix_pan 0 : ℚ) : ℝ) (-1) 1 + 1) *
         (Real.pi / 4)),
       x * Real.sin ((rclamp ((params.get_f32_h mix_pan 0 : ℚ) : ℝ) (-1) 1 + 1) *
         (Real.pi / 4))) ∧
    (Part.pan_mix_stage params mix_pan mix_volume mix_haas mix_comp x hs).1.1 ^ 2 +
      (Part.pan_mix_stage params mix_pan mix_volume mix_haas mix_comp x hs).1.2 ^ 2 =
      x ^ 2 ∧
    |(Part.pan_mix_stage params mix_pan mix_volume mix_haas mix_comp x hs).1.1 ^ 2 +
      (Part.pan_mix_stage params mix_pan mix_volume mix_haas mix_comp x hs).1.2 ^ 2 -
      x ^ 2| ≤ 1 / 100000 := by
  have hvr : rclamp ((params.get_f32_h mix_volume 1 : ℚ) : ℝ) 0 1 = 1 := by
    rw [hv]
    norm_num [rclamp]
  have hhr : ¬ 1 / 2000 < rclamp ((params.get_f32_h mix_haas 0 : ℚ) : ℝ) 0 1 := by
    apply not_lt.mpr
    apply rclamp_le_bound
    · have h2 : ((params.get_f32_h mix_haas 0 : ℚ) : ℝ) ≤ ((1 / 2000 : ℚ) : ℝ) :=
        Rat.cast_le.mpr hh
      push_cast at h2
      exact h2
    · norm_num
    · norm_num
  have hcr : ¬ 1 / 1000 < rclamp ((params.get_f32_h mix_comp 0 : ℚ) : ℝ) 0 1 := by
    apply not_lt.mpr
    apply rclamp_le_bound
    · have h2 : ((params.get_f32_h mix_comp 0 : ℚ) : ℝ) ≤ ((1 / 1000 : ℚ) : ℝ) :=
        Rat.cast_le.mpr hc
      push_cast at h2
      exact h2
    · norm_num
    · norm_num
  have hpan : Part.pan_volume params mix_pan mix_volume x =
      (x * Real.cos ((rclamp ((params.get_f32_h mix_pan 0 : ℚ) : ℝ) (-1) 1 + 1) *
         (Real.pi / 4)),
       x * Real.sin ((rclamp ((params.get_f32_h mix_pan 0 : ℚ) : ℝ) (-1) 1 + 1) *
         (Real.pi / 4))) := by
    unfold Part.pan_volume
    rw [hvr, mul_one, mul_one]
  have hmain : (Part.pan_mix_stage params mix_pan mix_volume mix_haas mix_comp x hs).1 =
      (x * Real.cos ((rclamp ((params.get_f32_h mix_pan 0 : ℚ) : ℝ) (-1) 1 + 1) *
         (Real.pi / 4)),
       x * Real.sin ((rclamp ((params.get_f32_h mix_pan 0 : ℚ) : ℝ) (-1) 1 + 1) *
         (Real.pi / 4))) := by
    unfold Part.pan_mix_stage
    unfold Part.haas_stage
    rw [if_neg hhr]
    unfold Part.comp_stage
    rw [if_neg hcr, hpan]
  have hsum : (Part.pan_mix_stage params mix_pan mix_volume mix_haas mix_comp x hs).1.1 ^ 2 +
      (Part.pan_mix_stage params mix_pan mix_volume mix_haas mix_comp x hs).1.2 ^ 2 =
      x ^ 2 := by
    rw [hmain]
    have hpyth := Real.sin_sq_add_cos_sq
      ((rclamp ((params.get_f32_h mix_pan 0 : ℚ) : ℝ) (-1) 1 + 1) * (Real.pi / 4))
    dsimp only
    nlinarith [hpyth]
  refine ⟨hmain, hsum, ?_⟩
  rw [hsum, sub_self, abs_zero]
  norm_num

/-- Witness for `C7_equal_power_pan`: with the defaults (volume 1, haas 0,
comp 0) and pan 0, the pan stage of input 1 satisfies L² + R² = 1. -/
theorem C7_equal_power_pan_witness :
    (Part.pan_mix_stage ParamStore.new 30 31 32 33 1 ⟨[0], 0, 0, 1⟩).1.1 ^ 2 +
      (Part.pan_mix_stage ParamStore.new 30 31 32 33 1 ⟨[0], 0, 0, 1⟩).1.2 ^ 2 =
      (1 : ℝ) ^ 2 :=
  (C7_equal_power_pan ParamStore.new 30 31 32 33 1 ⟨[0], 0, 0, 1⟩ rfl
    (by norm_num [ParamStore.new, ParamStore.get_f32_h])
    (by norm_num [ParamStore.new, ParamStore.get_f32_h])).2.1

/-- C8: if every one of the eight band gain parameters has absolute value
below 1e-3 dB, the biquad chain is skipped entirely and the EQ stage outputs
exactly its input. -/
theorem C8_eq_bypass (params : ParamStore) (eq_keys : List ℕ) (eq_centers : List ℝ)
    (sr : ℝ) (bands : List Biquad) (last_db : List ℝ) (x : ℝ)
    (h : ∀ i < 8, |params.get_f32_h (eq_keys.getD i 0) 0| < 1 / 1000) :
    (Part.eq_stage params eq_keys eq_centers sr bands last_db x).1 = x := by
  unfold Part.eq_stage
  rw [if_neg ?_]
  intro ⟨i, hi, habs⟩
  have hq := h i hi
  have hr : |((params.get_f32_h (eq_keys.getD i 0) 0 : ℚ) : ℝ)| < 1 / 1000 := by
    have h2 : ((|params.get_f32_h (eq_keys.getD i 0) 0| : ℚ) : ℝ) <
        ((1 / 1000 : ℚ) : ℝ) := Rat.cast_lt.mpr hq
    push_cast at h2
    exact h2
  have hub : ((params.get_f32_h (eq_keys.getD i 0) 0 : ℚ) : ℝ) ≤ 12 := by
    rcases abs_lt.mp hr with ⟨h1, h2⟩
    linarith
  have hlb : (-12 : ℝ) ≤ ((params.get_f32_h (eq_keys.getD i 0) 0 : ℚ) : ℝ) := by
    rcases abs_lt.mp hr with ⟨h1, h2⟩
    linarith
  rw [rclamp_eq_self _ _ _ hlb hub] at habs
  linarith [lt_trans habs hr]

/-- Witness for `C8_eq_bypass`: with all band gains at the default 0 dB the
EQ stage passes a sample of 1/2 through exactly. -/
theorem C8_eq_bypass_witness :
    (Part.eq_stage ParamStore.new [40, 41, 42, 43, 44, 45, 46, 47]
      [60, 120, 250, 500, 1000, 2000, 4000, 8000] 44100
      [Biquad.new, Biquad.new, Biquad.new, Biquad.new,
       Biquad.new, Biquad.new, Biquad.new, Biquad.new]
      [0, 0, 0, 0, 0, 0, 0, 0] (1 / 2)).1 = 1 / 2 :=
  C8_eq_bypass ParamStore.new [40, 41, 42, 43, 44, 45, 46, 47]
    [60, 120, 250, 500, 1000, 2000, 4000, 8000] 44100
    [Biquad.new, Biquad.new, Biquad.new, Biquad.new,
     Biquad.new, Biquad.new, Biquad.new, Biquad.new]
    [0, 0, 0, 0, 0, 0, 0, 0] (1 / 2)
    (fun i _ => by
      rw [show ParamStore.new.get_f32_h (([40, 41, 42, 43, 44, 45, 46, 47] :
        List ℕ).getD i 0) 0 = 0 from rfl]
      norm_num)

/-! ### Mixer (engine/graph.rs lines 2246-2272) -/

/-- Abstraction of an `f32` value that may be non-finite, as classified by
`f32::is_finite`: either a finite real or one of the non-finite payloads
(NaN, +inf, -inf). -/
inductive FVal where
  | fin (x : ℝ)
  | nan
  | inf
  | ninf

/-- Model of `f32::is_finite` on the abstraction. -/
def FVal.is_finite : FVal → Bool
  | .fin _ => true
  | _ => false

/-- The guard at graph.rs line 2262: a pair with both channels finite keeps
its values, any pair holding a NaN or infinity is replaced by (0, 0). -/
noncomputable def FVal.sanitizePair : FVal × FVal → ℝ × ℝ
  | (.fin a, .fin b) => (a, b)
  | _ => (0, 0)

/-- Model of `db_to_gain` (graph.rs line 2271). -/
noncomputable def db_to_gain (db : ℝ) : ℝ := (10 : ℝ) ^ (db / 20)

/-- Model of `soft_clip` (graph.rs line 2272): tanh then clamp to [-1, 1]. -/
noncomputable def soft_clip (x : ℝ) : ℝ := rclamp (Real.tanh x) (-1) 1

/-- Model of `Mixer` (graph.rs lines 2246-2249). -/
structure Mixer where
  sr : ℝ
  part_gains : List ℝ

/-- Model of `Mixer::new` (graph.rs line 2252). -/
noncomputable def Mixer.new (sr : ℝ) : Mixer := ⟨sr, [1, 1, 1, 1, 1, 1]⟩

/-- Model of `Mixer::set_gain_db` (graph.rs line 2253). -/
noncomputable def Mixer.set_gain_db (m : Mixer) (idx : ℕ) (db : ℝ) : Mixer :=
  if idx < 6 then
    { m with part_gains := m.part_gains.set idx (db_to_gain (rclamp db (-12) 12)) }
  else m

/-- The accumulation loop of `Mixer::mix` (graph.rs lines 2256-2264), with
the per-part render outputs abstracted as the list `parts_out` and the
per-part `mixer_gain_db` hash keys as `gain_keys`: each of the first
min(len, 6) parts contributes its sanitized pair times the product of the
clamped stored gain and the clamped parameter gain. -/
noncomputable def Mixer.bus (m : Mixer) (parts_out : List (FVal × FVal))
    (params : ParamStore) (gain_keys : List ℕ) : ℝ × ℝ :=
  (List.range (min parts_out.length 6)).foldl
    (fun (acc : ℝ × ℝ) i =>
      (acc.1 + (FVal.sanitizePair (parts_out.getD i (.fin 0, .fin 0))).1 *
         (rclamp (m.part_gains.getD i 0) 0 2 *
          rclamp (db_to_gain ((params.get_f32_h (gain_keys.getD i 0) 0 : ℚ) : ℝ)) 0 2),
       acc.2 + (FVal.sanitizePair (parts_out.getD i (.fin 0, .fin 0))).2 *
         (rclamp (m.part_gains.getD i 0) 0 2 *
          rclamp (db_to_gain ((params.get_f32_h (gain_keys.getD i 0) 0 : ℚ) : ℝ)) 0 2)))
    (0, 0)

/-- Model of `Mixer::mix` (graph.rs lines 2254-2268): accumulate the bus,
then soft-clip each channel. -/
noncomputable def Mixer.mix (m : Mixer) (parts_out : List (FVal × FVal))
    (params : ParamStore) (gain_keys : List ℕ) : ℝ × ℝ :=
  (soft_clip (Mixer.bus m parts_out params gain_keys).1,
   soft_clip (Mixer.bus m parts_out params gain_keys).2)

theorem FVal.sanitizePair_nonfinite (p : FVal × FVal)
    (h : p.1.is_finite = false ∨ p.2.is_finite = false) :
    FVal.sanitizePair p = (0, 0) := by
  rcases p with ⟨a, b⟩
  cases a <;> cases b <;> simp_all [FVal.is_finite, FVal.sanitizePair]

theorem foldl_range_congr {α : Type} (f g : α → ℕ → α) (n : ℕ)
    (h : ∀ i < n, ∀ a, f a i = g a i) :
    ∀ a, (List.range n).foldl f a = (List.range n).foldl g a := by
  induction n with
  | zero => intro a; rfl
  | succ k ih =>
    intro a
    rw [List.range_succ, List.foldl_append, List.foldl_append]
    simp only [List.foldl_cons, List.foldl_nil]
    rw [ih (fun i hi a => h i (Nat.lt_succ_of_lt hi) a) a, h k (Nat.lt_succ_self k)]

theorem getD_set_ne {α : Type} (l : List α) (j i : ℕ) (x d : α) (h : i ≠ j) :
    (l.set j x).getD i d = l.getD i d := by
  rw [List.getD_eq_getElem?_getD, List.getElem?_set_ne (Ne.symm h),
    List.getD_eq_getElem?_getD]

theorem getD_set_self {α : Type} (l : List α) (j : ℕ) (x d : α) (h : j < l.length) :
    (l.set j x).getD j d = x := by
  rw [List.getD_eq_getElem?_getD, List.getElem?_set_self h]
  rfl

theorem soft_clip_bounds (x : ℝ) : -1 ≤ soft_clip x ∧ soft_clip x ≤ 1 :=
  rclamp_le (Real.tanh x) (-1) 1 (by norm_num)

theorem Mixer.bus_set_nonfinite (m : Mixer) (params : ParamStore) (gain_keys : List ℕ)
    (parts_out : List (FVal × FVal)) (j : ℕ)
    (hnf : (parts_out.getD j (.fin 0, .fin 0)).1.is_finite = false ∨
           (parts_out.getD j (.fin 0, .fin 0)).2.is_finite = false) :
    Mixer.bus m parts_out params gain_keys =
      Mixer.bus m (parts_out.set j (.fin 0, .fin 0)) params gain_keys := by
  unfold Mixer.bus
  rw [List.length_set]
  apply foldl_range_congr
  intro i hi a
  rcases Decidable.em (i = j) with heq | hne
  · subst heq
    rcases Decidable.em (i < parts_out.length) with hlt | hge
    · rw [getD_set_self parts_out i _ _ hlt,
        FVal.sanitizePair_nonfinite _ hnf]
      rfl
    · exact absurd (lt_of_lt_of_le hi (min_le_left _ _)) hge
  · rw [getD_set_ne parts_out j i _ _ hne]

set_option maxHeartbeats 800000 in
/-- C9: Mixer::mix is robust to non-finite part output: a part whose
rendered pair holds a NaN or infinite channel contributes exactly as the
pair (0, 0) would (the mix is unchanged by that replacement), and thanks to
the tanh-plus-clamp soft clipper both returned channels always lie in
[-1, 1]. -/
theorem C9_mixer_robust (m : Mixer) (params : ParamStore) (gain_keys : List ℕ)
    (parts_out : List (FVal × FVal)) (j : ℕ)
    (hnf : (parts_out.getD j (.fin 0, .fin 0)).1.is_finite = false ∨
           (parts_out.getD j (.fin 0, .fin 0)).2.is_finite = false) :
    Mixer.mix m parts_out params gain_keys =
      Mixer.mix m (parts_out.set j (.fin 0, .fin 0)) params gain_keys ∧
    -1 ≤ (Mixer.mix m parts_out params gain_keys).1 ∧
    (Mixer.mix m parts_out params gain_keys).1 ≤ 1 ∧
    -1 ≤ (Mixer.mix m parts_out params gain_keys).2 ∧
    (Mixer.mix m parts_out params gain_keys).2 ≤ 1 := by
  refine ⟨?_, ?_, ?_, ?_, ?_⟩
  · unfold Mixer.mix
    rw [Mixer.bus_set_nonfinite m params gain_keys parts_out j hnf]
  · exact (soft_clip_bounds _).1
  · exact (soft_clip_bounds _).2
  · exact (soft_clip_bounds _).1
  · exact (soft_clip_bounds _).2

/-- Witness for `C9_mixer_robust`: a single part outputting (NaN, 0)
contributes nothing, and the mixed output stays within [-1, 1]. -/
theorem C9_mixer_robust_witness :
    Mixer.mix ⟨44100, [1, 1, 1, 1, 1, 1]⟩ [(.nan, .fin 0)] ParamStore.new [0] =
      Mixer.mix ⟨44100, [1, 1, 1, 1, 1, 1]⟩
        (([(.nan, .fin 0)] : List (FVal × FVal)).set 0 (.fin 0, .fin 0))
        ParamStore.new [0] ∧
    (Mixer.mix ⟨44100, [1, 1, 1, 1, 1, 1]⟩ [(.nan, .fin 0)] ParamStore.new [0]).1 ≤ 1 :=
  ⟨(C9_mixer_robust ⟨44100, [1, 1, 1, 1, 1, 1]⟩ ParamStore.new [0]
      [(.nan, .fin 0)] 0 (Or.inl rfl)).1,
   (C9_mixer_robust ⟨44100, [1, 1, 1, 1, 1, 1]⟩ ParamStore.new [0]
      [(.nan, .fin 0)] 0 (Or.inl rfl)).2.2.1⟩

end Subcellos

